import Mathlib

/-!
Verification of the purchase-order dashboard API server (`server/index.js`,
bundled in the repository sources): the `buildWhere` filter compiler and the
aggregation endpoints (`/api/po/kpis`, `/api/po/lines`, `/api/po/products`,
`/api/po/skus`).

The JavaScript/SQL code is shallowly embedded:
* query-string parameters are `String`s, with `""` standing for an absent
  parameter (absent and empty are interchangeable for the code, which only
  tests JS truthiness on these values);
* SQL three-valued logic is the type `TV` (`t`/`f`/`u`);
* the SQL predicate fragments pushed by `buildWhere` are the constructors of
  `Cond`; `Cond.render` reproduces the exact SQL text and
  `Cond.placeholders` lists the `$k` placeholder indices occurring in that
  text, in textual order;
* dates are `PgDate` triples compared lexicographically (time-of-day is not
  modelled; no claim depends on it);
* every string operation used by the code (split, trim, parseInt, Number,
  ILIKE) is defined here by structural recursion so that concrete instances
  evaluate inside the kernel.
-/

/-- Decimal digit value of a character. -/
def digitVal (c : Char) : Nat := c.toNat - 48

/-- Accumulate decimal digits into a natural number (most significant first). -/
def readDigits (cs : List Char) (acc : Nat) : Nat :=
  cs.foldl (fun a c => a * 10 + digitVal c) acc

/-- Parse a non-empty all-digit character list into a natural number. -/
def parseNatChars (cs : List Char) : Option Nat :=
  if cs ≠ [] ∧ cs.all Char.isDigit then some (readDigits cs 0) else none

/-- Whitespace characters recognised when modelling JS `trim` / `parseInt`
(space, tab, line feed, vertical tab, form feed, carriage return; the less
common Unicode space characters are outside the modelled input domain). -/
def isWs (c : Char) : Bool :=
  c = ' ' || c.toNat = 9 || c.toNat = 10 || c.toNat = 11 || c.toNat = 12 || c.toNat = 13

/-- Model of the JS `String.prototype.trim()`. -/
def jsTrim (s : String) : String :=
  String.mk (((s.data.dropWhile isWs).reverse.dropWhile isWs).reverse)

/-- Model of the SQL `TRIM(x)`, which strips space characters only. -/
def sqlTrim (s : String) : String :=
  String.mk (((s.data.dropWhile (· = ' ')).reverse.dropWhile (· = ' ')).reverse)

/-- Drop `sep` from the front of `s` if it is a leading run, else `none`. -/
def stripSep : List Char → List Char → Option (List Char)
  | [], s => some s
  | _ :: _, [] => none
  | p :: ps, c :: cs => if p = c then stripSep ps cs else none

/-- Split a character list at each non-overlapping occurrence of the
(non-empty) separator, scanning left to right; `fuel` bounds the recursion
and is always supplied large enough that it is never exhausted. -/
def splitAux (sep : List Char) : Nat → List Char → List Char → List (List Char)
  | 0, s, acc => [acc.reverse ++ s]
  | _ + 1, [], acc => [acc.reverse]
  | fuel + 1, c :: cs, acc =>
    match stripSep sep (c :: cs) with
    | some rest => acc.reverse :: splitAux sep fuel rest []
    | none => splitAux sep fuel cs (c :: acc)

/-- Model of the JS `String.prototype.split(sep)` and of the field splitting
performed by the Postgres `split_part`, for a non-empty separator. -/
def strSplit (s sep : String) : List String :=
  if sep = "" then [s]
  else (splitAux sep.data (s.data.length + 1) s.data []).map String.mk

/-- Model of the Postgres `split_part(s, sep, n)` (1-indexed; returns the
empty string when the path has fewer than `n` fields). -/
def split_part (s sep : String) (n : Nat) : String :=
  ((strSplit s sep)[n - 1]?).getD ""

/-- Model of the Postgres `string_to_array(s, sep)`: the empty string yields
the empty array. -/
def stringToArray (s sep : String) : List String :=
  if s = "" then [] else strSplit s sep

/-- Model of the JS `parseInt(s, 10)`: skip leading whitespace, read an
optional sign and then the longest digit prefix; `none` models `NaN`.
Hexadecimal prefixes and non-decimal forms are outside the modelled input
domain. -/
def jsParseInt (s : String) : Option Int :=
  match s.data.dropWhile isWs with
  | '-' :: rest =>
    (parseNatChars (rest.takeWhile Char.isDigit)).map (fun n => -(n : Int))
  | '+' :: rest =>
    (parseNatChars (rest.takeWhile Char.isDigit)).map (fun n => (n : Int))
  | cs =>
    (parseNatChars (cs.takeWhile Char.isDigit)).map (fun n => (n : Int))

/-- Model of the JS `Number(s)` restricted to the integer-shaped strings the
server feeds it: the empty (or all-whitespace) string is `0`, an optionally
signed digit string is its value, anything else is `NaN` (`none`).
Fractional and exponent forms are outside the modelled input domain. -/
def jsNumber (s : String) : Option Int :=
  match (jsTrim s).data with
  | [] => some 0
  | '-' :: rest => (parseNatChars rest).map (fun n => -(n : Int))
  | '+' :: rest => (parseNatChars rest).map (fun n => (n : Int))
  | cs => (parseNatChars cs).map (fun n => (n : Int))

/-- Render a possibly-NaN JS number as JS string interpolation does. -/
def jsShow : Option Int → String
  | none => "NaN"
  | some n => toString n

/-- Model of `x + 1` on a possibly-NaN JS number. -/
def jsAdd1 : Option Int → Option Int
  | none => none
  | some n => some (n + 1)

/-- Model of the JS `String.prototype.padStart(2, c)` with a zero pad. -/
def padStart2 (s : String) : String :=
  if s.length < 2 then String.mk (List.replicate (2 - s.length) '0') ++ s else s

/-- Zero-pad the decimal rendering of an integer to a given width, as the
Postgres `TO_CHAR` patterns `YYYY` / `MM` do for non-negative inputs. -/
def padNum (w : Nat) (n : Int) : String :=
  let s := toString n
  if s.length < w then String.mk (List.replicate (w - s.length) '0') ++ s else s

/-- Strict byte-order comparison on character lists (the C collation under
which the database compares and sorts text). -/
def charsLt : List Char → List Char → Bool
  | [], [] => false
  | [], _ :: _ => true
  | _ :: _, [] => false
  | a :: as, b :: bs => a.toNat < b.toNat || (a.toNat = b.toNat && charsLt as bs)

/-- Non-strict text comparison used to model `ORDER BY` on text columns. -/
def strLeB (s t : String) : Bool := !(charsLt t.data s.data)

/-- Matcher for the SQL `LIKE` pattern language: `%` matches any run, `_`
any single character, all else literally (escape sequences are outside the
modelled input domain). -/
def likeMatch : List Char → List Char → Bool
  | [], [] => true
  | [], _ :: _ => false
  | '%' :: ps, [] => likeMatch ps []
  | '%' :: ps, c :: s => likeMatch ps (c :: s) || likeMatch ('%' :: ps) s
  | '_' :: ps, _ :: s => likeMatch ps s
  | _ :: _, [] => false
  | p :: ps, c :: s => p = c && likeMatch ps s
termination_by ps s => (ps.length, s.length)

/-- Model of the Postgres `ILIKE`: case-insensitive `LIKE`. -/
def ilike (s pat : String) : Bool :=
  likeMatch (pat.data.map Char.toLower) (s.data.map Char.toLower)

/-- SQL three-valued logic: true, false, unknown (`NULL`). -/
inductive TV where
  | t
  | f
  | u
deriving DecidableEq

/-- Three-valued conjunction. -/
def TV.and : TV → TV → TV
  | .f, _ => .f
  | _, .f => .f
  | .t, .t => .t
  | _, _ => .u

/-- Three-valued disjunction. -/
def TV.or : TV → TV → TV
  | .t, _ => .t
  | _, .t => .t
  | .f, .f => .f
  | _, _ => .u

/-- Embed a Boolean into three-valued logic. -/
def tvOfBool (b : Bool) : TV := if b then .t else .f

/-- Calendar date as stored in `po.date_order` (time-of-day is dropped: the
queries compare against day boundaries only). -/
structure PgDate where
  year : Int
  month : Int
  day : Int
deriving DecidableEq

/-- Lexicographic strict order on dates. -/
def PgDate.ltB (a b : PgDate) : Bool :=
  a.year < b.year ||
    (a.year = b.year &&
      (a.month < b.month || (a.month = b.month && a.day < b.day)))

/-- Lexicographic non-strict order on dates. -/
def PgDate.leB (a b : PgDate) : Bool := a.ltB b || a = b

/-- Model of the Postgres cast `text::date` on ISO `Y-M-D` literals; `none`
models a failing cast (which aborts the whole query — see `evalCond`). The
other literal date formats Postgres accepts never arise in this program. -/
def parsePgDate (s : String) : Option PgDate :=
  match strSplit s "-" with
  | [ys, ms, ds] =>
    match parseNatChars ys.data, parseNatChars ms.data, parseNatChars ds.data with
    | some y, some m, some d =>
      if 1 ≤ m ∧ m ≤ 12 ∧ 1 ≤ d ∧ d ≤ 31 then
        some ⟨(y : Int), (m : Int), (d : Int)⟩
      else none
    | _, _, _ => none
  | _ => none

/-- Model of `date_trunc(\x27month\x27, d)`. -/
def monthTrunc (d : PgDate) : PgDate := ⟨d.year, d.month, 1⟩

/-- Model of `TO_CHAR(d, \x27YYYY-MM\x27)`. -/
def toCharYYYYMM (d : PgDate) : String := padNum 4 d.year ++ "-" ++ padNum 2 d.month

/-- Value bound to a positional SQL parameter: the server pushes strings
(dates, category names, SKUs, patterns) and integers (template ids). -/
inductive Param where
  | str (v : String)
  | int (v : Int)
deriving DecidableEq

/-- Predicate fragments pushed into `conds` by `buildWhere`; each
constructor corresponds to one exact SQL text, reproduced by
`Cond.render`. -/
inductive Cond where
  | stateIn (states : List String)
  | dateGe (k : Nat)
  | dateLtParam (k : Nat)
  | dateLtLit (d : String)
  | catEq (lvl : Nat) (k : Nat)
  | searchLike (k : Nat)
  | skuIn (ks : List Nat)
  | tmplIn (ks : List Nat)
deriving DecidableEq

/-- Positional placeholder indices occurring in the rendered SQL text of a
fragment, in textual order. Note that the free-text search fragment
references its single parameter twice (`ILIKE $n OR ... ILIKE $n`). -/
def Cond.placeholders : Cond → List Nat
  | .stateIn _ => []
  | .dateGe k => [k]
  | .dateLtParam k => [k]
  | .dateLtLit _ => []
  | .catEq _ k => [k]
  | .searchLike k => [k, k]
  | .skuIn ks => ks
  | .tmplIn ks => ks

/-- Render a placeholder. -/
def phText (k : Nat) : String := "$" ++ toString k

/-- Exact SQL text of each fragment, as assembled in `buildWhere`. -/
def Cond.render : Cond → String
  | .stateIn states =>
    "po.state IN (" ++ ",".intercalate (states.map (fun s => "\x27" ++ s ++ "\x27")) ++ ")"
  | .dateGe k => "po.date_order >= " ++ phText k ++ "::date"
  | .dateLtParam k => "po.date_order < " ++ phText k ++ "::date"
  | .dateLtLit d => "po.date_order < \x27" ++ d ++ "\x27"
  | .catEq lvl k =>
    "NULLIF(split_part(pc.complete_name,\x27 / \x27," ++ toString lvl ++ "),\x27\x27) = " ++ phText k
  | .searchLike k =>
    "(COALESCE(pp.default_code,pt.default_code) ILIKE " ++ phText k ++
      " OR pt.name->>\x27en_US\x27 ILIKE " ++ phText k ++ ")"
  | .skuIn ks =>
    "COALESCE(pp.default_code,pt.default_code) IN (" ++
      ", ".intercalate (ks.map phText) ++ ")"
  | .tmplIn ks =>
    "pp.product_tmpl_id IN (" ++ ", ".intercalate (ks.map phText) ++ ")"

/-- Result of `buildWhere`: the accumulated parameter list and the list of
predicate fragments (joined with ` AND ` by `whereRender`). -/
structure BW where
  params : List Param
  conds : List Cond
deriving DecidableEq

/-- Joined WHERE clause text, as in `conds.join(\x27 AND \x27)`. -/
def whereRender (b : BW) : String := " AND ".intercalate (b.conds.map Cond.render)

/-- Placeholder indices of the whole WHERE clause, in textual order. -/
def whPlaceholders (b : BW) : List Nat := b.conds.flatMap Cond.placeholders

/-- Parsed query string of a request, one field per parameter read anywhere
by the server; `""` stands for an absent parameter (the code distinguishes
only JS truthiness on these fields). -/
structure Query where
  dateFrom : String
  dateTo : String
  catL1 : String
  catL2 : String
  catL3 : String
  search : String
  skus : String
  productTmplIds : String
  page : String
  pageSize : String
  sortBy : String
  sortDir : String
  q : String
  tmplId : String
deriving DecidableEq

/-- Query with every parameter absent. -/
def Query.empty : Query :=
  ⟨"", "", "", "", "", "", "", "", "", "", "", "", "", ""⟩

/-- Initial builder state: `const params = []` and
`const conds = ["po.state IN (\x27purchase\x27,\x27done\x27)"]`. -/
def bwInit : BW := ⟨[], [Cond.stateIn ["purchase", "done"]]⟩

/-- Date-from step: `const rawFrom = query.dateFrom || \x272025-01\x27;
params.push(rawFrom + \x27-01\x27); conds.push(date_order >= $n)`. -/
def stepDateFrom (q : Query) (b : BW) : BW :=
  let rawFrom := if q.dateFrom = "" then "2025-01" else q.dateFrom
  let ps := b.params ++ [Param.str (rawFrom ++ "-01")]
  ⟨ps, b.conds ++ [Cond.dateGe ps.length]⟩

/-- Upper bound date string: first day of the month after `dateTo`, with
December rolling over to January 1 of the next year, computed exactly as the
JS template literals do (including `NaN` propagation). -/
def nextMonthStr (dateTo : String) : String :=
  let parts := strSplit dateTo "-"
  let y := (parts[0]?).bind jsNumber
  let m := (parts[1]?).bind jsNumber
  if m = some 12 then jsShow (jsAdd1 y) ++ "-01-01"
  else jsShow y ++ "-" ++ padStart2 (jsShow (jsAdd1 m)) ++ "-01"

/-- Date-to step: when `query.dateTo` is set, push the next-month bound and
a strict `<` predicate; otherwise push the far-future literal bound. -/
def stepDateTo (q : Query) (b : BW) : BW :=
  if q.dateTo ≠ "" then
    let ps := b.params ++ [Param.str (nextMonthStr q.dateTo)]
    ⟨ps, b.conds ++ [Cond.dateLtParam ps.length]⟩
  else ⟨b.params, b.conds ++ [Cond.dateLtLit "2099-01-01"]⟩

/-- Category level step, one per `catL1`/`catL2`/`catL3`. -/
def stepCat (lvl : Nat) (v : String) (b : BW) : BW :=
  if v ≠ "" then
    let ps := b.params ++ [Param.str v]
    ⟨ps, b.conds ++ [Cond.catEq lvl ps.length]⟩
  else b

/-- Free-text search step: one pattern parameter bound to both sides of the
`OR`. -/
def stepSearch (q : Query) (b : BW) : BW :=
  if q.search ≠ "" then
    let ps := b.params ++ [Param.str ("%" ++ q.search ++ "%")]
    ⟨ps, b.conds ++ [Cond.searchLike ps.length]⟩
  else b

/-- SKU list parsed from the comma-separated `skus` parameter:
`query.skus.split(\x27,\x27).map(s => s.trim()).filter(Boolean)`. -/
def skuListOf (q : Query) : List String :=
  ((strSplit q.skus ",").map jsTrim).filter (fun s => s ≠ "")

/-- SKU `IN` step: placeholders `$(len+1+i)` for each selected SKU, then the
SKUs appended to the parameter list. -/
def stepSkus (q : Query) (b : BW) : BW :=
  if q.skus ≠ "" then
    let skuList := skuListOf q
    if skuList ≠ [] then
      let phs := skuList.mapIdx (fun i _ => b.params.length + 1 + i)
      ⟨b.params ++ skuList.map Param.str, b.conds ++ [Cond.skuIn phs]⟩
    else b
  else b

/-- Template id list parsed from `productTmplIds`: split on commas, parse
each trimmed token with `parseInt`, keep only finite positive values. -/
def tmplIdsOf (q : Query) : List Int :=
  ((strSplit q.productTmplIds ",").map (fun s => jsParseInt (jsTrim s))).filterMap
    (fun o => match o with
      | some n => if 0 < n then some n else none
      | none => none)

/-- Template `IN` step, mirroring `stepSkus` with integer parameters. -/
def stepTmpl (q : Query) (b : BW) : BW :=
  if q.productTmplIds ≠ "" then
    let ids := tmplIdsOf q
    if ids ≠ [] then
      let phs := ids.mapIdx (fun i _ => b.params.length + 1 + i)
      ⟨b.params ++ ids.map Param.int, b.conds ++ [Cond.tmplIn phs]⟩
    else b
  else b

/-- The filter compiler `buildWhere(query)`: the steps in source order. -/
def buildWhere (q : Query) : BW :=
  stepTmpl q (stepSkus q (stepSearch q
    (stepCat 3 q.catL3 (stepCat 2 q.catL2 (stepCat 1 q.catL1
      (stepDateTo q (stepDateFrom q bwInit)))))))

/-- One row of the joined relation produced by `BASE_JOINS`: the columns the
queries read. `pc.*` and `uom_pol.*` come through `LEFT JOIN`s and the
`default_code` / localized-name columns are nullable, hence the `Option`
fields. Quantities and prices are `numeric`, embedded as `ℚ`. -/
structure Row where
  state : String
  dateOrder : PgDate
  completeName : Option String
  defaultCodePP : Option String
  defaultCodePT : Option String
  nameEn : Option String
  productTmplId : Int
  variantId : Int
  uomId : Option Int
  uomName : Option String
  productQty : ℚ
  qtyReceived : ℚ
  qtyInvoiced : ℚ
  priceUnit : ℚ
deriving DecidableEq

/-- Model of `COALESCE(pp.default_code, pt.default_code)`. -/
def rowSku (r : Row) : Option String := r.defaultCodePP.or r.defaultCodePT

/-- Model of `NULLIF(split_part(pc.complete_name,\x27 / \x27,lvl),\x27\x27)`:
`NULL` when the category path is `NULL` or has fewer than `lvl` segments (or
an empty segment at that position). -/
def catSegment (name : Option String) (lvl : Nat) : Option String :=
  match name with
  | none => none
  | some s =>
    let seg := split_part s " / " lvl
    if seg = "" then none else some seg

/-- Model of `array_length(string_to_array(pc.complete_name,\x27 / \x27),1)`
(`NULL` on a `NULL` path and on the empty array). -/
def categoryDepth (name : Option String) : Option Int :=
  match name with
  | none => none
  | some s =>
    let arr := stringToArray s " / "
    if arr.isEmpty then none else some (arr.length : Int)

/-- Model of `(string_to_array(...))[array_length(...)]`: the last segment,
`NULL` when the index is `NULL`. -/
def categoryLeaf (name : Option String) : Option String :=
  match name with
  | none => none
  | some s =>
    let arr := stringToArray s " / "
    match categoryDepth name with
    | none => none
    | some k => arr[(k - 1).toNat]?

/-- ILIKE lifted to a nullable left operand. -/
def ilikeTV (o : Option String) (pat : String) : TV :=
  match o with
  | none => .u
  | some s => tvOfBool (ilike s pat)

/-- String parameter lookup used by the `IN` fragments. -/
def paramStrEq (ps : List Param) (k : Nat) (s : String) : Bool :=
  match ps[k - 1]? with
  | some (.str v) => decide (s = v)
  | _ => false

/-- Integer parameter lookup used by the template `IN` fragment. -/
def paramIntEq (ps : List Param) (k : Nat) (n : Int) : Bool :=
  match ps[k - 1]? with
  | some (.int v) => decide (n = v)
  | _ => false

/-- Three-valued evaluation of one predicate fragment against a joined row,
with the parameter list resolving the `$k` placeholders. A parameter whose
`::date` cast fails aborts the whole query in Postgres (surfacing as a 500
error); this evaluator returns `u` there, so that the enclosing conjunction
is never satisfied, matching the absence of result rows. -/
def evalCond (ps : List Param) (r : Row) : Cond → TV
  | .stateIn states => tvOfBool (decide (r.state ∈ states))
  | .dateGe k =>
    match ps[k - 1]? with
    | some (.str s) =>
      match parsePgDate s with
      | some d => tvOfBool (d.leB r.dateOrder)
      | none => .u
    | _ => .u
  | .dateLtParam k =>
    match ps[k - 1]? with
    | some (.str s) =>
      match parsePgDate s with
      | some d => tvOfBool (r.dateOrder.ltB d)
      | none => .u
    | _ => .u
  | .dateLtLit s =>
    match parsePgDate s with
    | some d => tvOfBool (r.dateOrder.ltB d)
    | none => .u
  | .catEq lvl k =>
    match catSegment r.completeName lvl, ps[k - 1]? with
    | some seg, some (.str v) => tvOfBool (decide (seg = v))
    | _, _ => .u
  | .searchLike k =>
    match ps[k - 1]? with
    | some (.str pat) => TV.or (ilikeTV (rowSku r) pat) (ilikeTV r.nameEn pat)
    | _ => .u
  | .skuIn ks =>
    match rowSku r with
    | none => if ks = [] then .f else .u
    | some s => tvOfBool (ks.any (fun k => paramStrEq ps k s))
  | .tmplIn ks => tvOfBool (ks.any (fun k => paramIntEq ps k r.productTmplId))

/-- Three-valued evaluation of the whole WHERE clause: the fragments joined
with `AND`. -/
def evalWhere (b : BW) (r : Row) : TV :=
  b.conds.foldl (fun acc c => TV.and acc (evalCond b.params r c)) TV.t

/-- Rows of the joined relation kept by the WHERE clause (Postgres keeps a
row only when the predicate is true, not unknown). -/
def filteredRows (db : List Row) (q : Query) : List Row :=
  db.filter (fun r => decide (evalWhere (buildWhere q) r = TV.t))

/-- Model of SQL `SUM` over a column list: `NULL` on the empty set. -/
def sqlSum (l : List ℚ) : Option ℚ :=
  match l with
  | [] => none
  | _ => some l.sum

/-- Model of `NULLIF(x, v)` on a nullable numeric. -/
def sqlNullIf (o : Option ℚ) (v : ℚ) : Option ℚ :=
  match o with
  | none => none
  | some x => if x = v then none else some x

/-- Floor of a rational, computed with flooring integer division (usable in
kernel evaluation, unlike the classical `Int.floor`). -/
def ratFloor (x : ℚ) : Int := Int.fdiv x.num (x.den : Int)

/-- Model of the numeric `ROUND(x, 1)`: round half away from zero to one
decimal place. -/
def pgRound1 (x : ℚ) : ℚ :=
  if 0 ≤ x then ((ratFloor (10 * x + 1 / 2) : ℚ) / 10)
  else -((ratFloor (10 * (-x) + 1 / 2) : ℚ) / 10)

/-- Result row of `GET /api/po/kpis`. -/
structure KpiOut where
  total_lines : Nat
  total_ordered_value : ℚ
  total_ordered_qty : ℚ
  total_received_value : ℚ
  total_invoiced_value : ℚ
  pct_received : Option ℚ
  pct_invoiced : Option ℚ
  distinct_months : Nat
deriving DecidableEq

/-- Percentage with the divide-by-zero guard:
`ROUND(100.0 * COALESCE(SUM(num),0) / NULLIF(SUM(den),0), 1)`. -/
def pctOf (num den : Option ℚ) : Option ℚ :=
  match sqlNullIf den 0 with
  | none => none
  | some d => some (pgRound1 (100 * num.getD 0 / d))

/-- Model of `GET /api/po/kpis`: a single aggregate row over the filtered
joined relation. -/
def kpisEndpoint (db : List Row) (q : Query) : KpiOut :=
  let rows := filteredRows db q
  let ordVal := sqlSum (rows.map (fun r => r.productQty * r.priceUnit))
  let recvVal := sqlSum (rows.map (fun r => r.qtyReceived * r.priceUnit))
  let invVal := sqlSum (rows.map (fun r => r.qtyInvoiced * r.priceUnit))
  { total_lines := rows.length
    total_ordered_value := ordVal.getD 0
    total_ordered_qty := (sqlSum (rows.map (fun r => r.productQty))).getD 0
    total_received_value := recvVal.getD 0
    total_invoiced_value := invVal.getD 0
    pct_received := pctOf recvVal ordVal
    pct_invoiced := pctOf invVal ordVal
    distinct_months :=
      ((rows.map (fun r => toCharYYYYMM (monthTrunc r.dateOrder))).dedup).length }

/-- Result of the JS property lookup `SORTABLE[key]`: the `SORTABLE` map in
the source is a plain object literal, so the lookup can hit an own entry
(one of the eleven column names), an inherited member of
`Object.prototype` (a truthy function or object — the literal does not
have a null prototype), or miss entirely (`undefined`, which is falsy). -/
inductive SortLookup where
  | col (name : String)
  | inherited (key : String)
  | miss
deriving DecidableEq

/-- Property names every plain object literal inherits from
`Object.prototype`; indexing `SORTABLE` with any of these returns a truthy
value that is not a column name. -/
def protoKeys : List String :=
  ["constructor", "hasOwnProperty", "isPrototypeOf", "propertyIsEnumerable",
    "toLocaleString", "toString", "valueOf", "__defineGetter__",
    "__defineSetter__", "__lookupGetter__", "__lookupSetter__", "__proto__"]

/-- Template-literal rendering of an inherited `Object.prototype` member
under V8 (the engine Node runs): the methods stringify as
`function name() \x7b [native code] \x7d` — with `constructor` naming the
`Object` function — and the `__proto__` accessor yields `Object.prototype`
itself, which stringifies as `[object Object]`. These are fixed
engine-supplied strings, not text taken from the request. -/
def protoRender (k : String) : String :=
  if k = "__proto__" then "[object Object]"
  else if k = "constructor" then "function Object() \x7b [native code] \x7d"
  else "function " ++ k ++ "() \x7b [native code] \x7d"

/-- The `SORTABLE` lookup of `/api/po/lines`: own entries map a `sortBy`
request value to the output column used in `ORDER BY`; any other string
that names an `Object.prototype` member hits the prototype chain. -/
def SORTABLE : String → SortLookup
  | "month" => .col "month"
  | "sku" => .col "sku"
  | "product_name_en" => .col "product_name_en"
  | "category_l1" => .col "category_l1"
  | "category_l2" => .col "category_l2"
  | "category_l3" => .col "category_l3"
  | "ordered_qty" => .col "ordered_qty_po_uom"
  | "received_qty" => .col "received_qty_po_uom"
  | "invoiced_qty" => .col "invoiced_qty_po_uom"
  | "ordered_value" => .col "ordered_value_thb"
  | "avg_price" => .col "avg_price_unit_thb"
  | s => if s ∈ protoKeys then .inherited s else .miss

/-- The eleven output column names that own entries of `SORTABLE` map
to. -/
def sortColumns : List String :=
  ["month", "sku", "product_name_en", "category_l1", "category_l2",
    "category_l3", "ordered_qty_po_uom", "received_qty_po_uom",
    "invoiced_qty_po_uom", "ordered_value_thb", "avg_price_unit_thb"]

/-- Column text interpolated into `ORDER BY`:
`SORTABLE[req.query.sortBy] || \x27month\x27`. An own entry gives its
column name; an inherited `Object.prototype` member is truthy, so the
`|| month` fallback does NOT fire and the member stringification reaches
the query text; only a genuine miss (`undefined`) falls back to
`month`. -/
def sortColOf (sortBy : String) : String :=
  match SORTABLE sortBy with
  | .col c => c
  | .inherited k => protoRender k
  | .miss => "month"

/-- Direction interpolated into `ORDER BY`:
`req.query.sortDir === \x27asc\x27 ? \x27ASC\x27 : \x27DESC\x27`. -/
def sortDirOf (sortDir : String) : String := if sortDir = "asc" then "ASC" else "DESC"

/-- Tie-break direction on `sku`, the opposite of the primary one. -/
def tieDirOf (sortDir : String) : String :=
  if sortDirOf sortDir = "DESC" then "ASC" else "DESC"

/-- Full `ORDER BY` text interpolated into the data query. -/
def orderByFragment (sortBy sortDir : String) : String :=
  sortColOf sortBy ++ " " ++ sortDirOf sortDir ++ ", sku " ++ tieDirOf sortDir

/-- Effective page: `Math.max(1, parseInt(req.query.page || \x271\x27))`;
`none` models `NaN` (`Math.max` propagates `NaN`). -/
def effPage (page : String) : Option Int :=
  (jsParseInt (if page = "" then "1" else page)).map (fun n => max 1 n)

/-- Effective page size:
`Math.min(200, Math.max(10, parseInt(req.query.pageSize || \x2750\x27)))`. -/
def effPageSize (pageSize : String) : Option Int :=
  (jsParseInt (if pageSize = "" then "50" else pageSize)).map
    (fun n => min 200 (max 10 n))

/-- Value of a sortable output column: text, numeric, or `NULL`. -/
inductive SqlVal where
  | s (v : String)
  | n (v : ℚ)
  | null
deriving DecidableEq

/-- Cross-constructor rank used to totalise the order; `NULL` ranks above
every non-null value, which is how Postgres places `NULL`s by default
(last ascending, first descending). Text and numeric values never meet in
one column. -/
def SqlVal.rank : SqlVal → Nat
  | .s _ => 0
  | .n _ => 1
  | .null => 2

/-- Ascending comparison on column values (byte order on text, numeric
order on numbers, `NULL` greatest). -/
def SqlVal.ascLe : SqlVal → SqlVal → Bool
  | .s a, .s b => strLeB a b
  | .n a, .n b => decide (a ≤ b)
  | a, b => decide (a.rank ≤ b.rank)

/-- Nullable text column as a sortable value. -/
def optSVal : Option String → SqlVal
  | none => .null
  | some v => .s v

/-- One row of the rollup (`GROUP BY`) result of the lines data query: the
eleven grouped output columns plus the aggregated measures. -/
structure RollupRow where
  month : String
  variant_id : Int
  sku : Option String
  product_name_en : Option String
  category_path : Option String
  category_l1 : Option String
  category_l2 : Option String
  category_l3 : Option String
  category_depth : Option Int
  category_leaf : Option String
  po_uom : Option String
  ordered_qty_po_uom : ℚ
  received_qty_po_uom : ℚ
  invoiced_qty_po_uom : ℚ
  ordered_value_thb : ℚ
  avg_price_unit_thb : ℚ
deriving DecidableEq

/-- Grouping key of the data query: the eleven columns in its `GROUP BY`. -/
structure DKey where
  month : String
  variant_id : Int
  sku : Option String
  product_name_en : Option String
  category_path : Option String
  category_l1 : Option String
  category_l2 : Option String
  category_l3 : Option String
  category_depth : Option Int
  category_leaf : Option String
  po_uom : Option String
deriving DecidableEq

/-- Grouping key of one joined row under the data query. -/
def dataKey (r : Row) : DKey :=
  { month := toCharYYYYMM (monthTrunc r.dateOrder)
    variant_id := r.variantId
    sku := rowSku r
    product_name_en := r.nameEn
    category_path := r.completeName
    category_l1 := catSegment r.completeName 1
    category_l2 := catSegment r.completeName 2
    category_l3 := catSegment r.completeName 3
    category_depth := categoryDepth r.completeName
    category_leaf := categoryLeaf r.completeName
    po_uom := r.uomName }

/-- Grouping key of the count query:
`GROUP BY pp.id, uom_pol.id, date_trunc(\x27month\x27, po.date_order)`. -/
def countKey (r : Row) : Int × Option Int × PgDate :=
  (r.variantId, r.uomId, monthTrunc r.dateOrder)

/-- Aggregate one `GROUP BY` group into its output row (`SUM`s and the
`AVG` of the unit price). -/
def mkRollup (key : DKey) (group : List Row) : RollupRow :=
  { month := key.month
    variant_id := key.variant_id
    sku := key.sku
    product_name_en := key.product_name_en
    category_path := key.category_path
    category_l1 := key.category_l1
    category_l2 := key.category_l2
    category_l3 := key.category_l3
    category_depth := key.category_depth
    category_leaf := key.category_leaf
    po_uom := key.po_uom
    ordered_qty_po_uom := (group.map (fun r => r.productQty)).sum
    received_qty_po_uom := (group.map (fun r => r.qtyReceived)).sum
    invoiced_qty_po_uom := (group.map (fun r => r.qtyInvoiced)).sum
    ordered_value_thb := (group.map (fun r => r.productQty * r.priceUnit)).sum
    avg_price_unit_thb :=
      (group.map (fun r => r.priceUnit)).sum / (group.length : ℚ) }

/-- The grouped (pre-`ORDER BY`) result set of the lines data query. -/
def rollupRows (db : List Row) (q : Query) : List RollupRow :=
  let rows := filteredRows db q
  ((rows.map dataKey).dedup).map
    (fun k => mkRollup k (rows.filter (fun r => decide (dataKey r = k))))

/-- The `total` reported by the count query: number of groups of
`(pp.id, uom_pol.id, date_trunc(\x27month\x27, date_order))`. -/
def linesTotal (db : List Row) (q : Query) : Nat :=
  (((filteredRows db q).map countKey).dedup).length

/-- Value of a sortable output column on a rollup row, by its SQL column
name (the range of `sortColOf`; other names cannot reach the query). -/
def colValue (col : String) (r : RollupRow) : SqlVal :=
  match col with
  | "month" => .s r.month
  | "sku" => optSVal r.sku
  | "product_name_en" => optSVal r.product_name_en
  | "category_l1" => optSVal r.category_l1
  | "category_l2" => optSVal r.category_l2
  | "category_l3" => optSVal r.category_l3
  | "ordered_qty_po_uom" => .n r.ordered_qty_po_uom
  | "received_qty_po_uom" => .n r.received_qty_po_uom
  | "invoiced_qty_po_uom" => .n r.invoiced_qty_po_uom
  | "ordered_value_thb" => .n r.ordered_value_thb
  | "avg_price_unit_thb" => .n r.avg_price_unit_thb
  | _ => .null

/-- Sort value of the `sku` tie-break column. -/
def skuVal (r : RollupRow) : SqlVal := optSVal r.sku

/-- Row comparison realising `ORDER BY col dir, sku oppositeDir`. -/
def rowLeB (col : String) (dirAsc : Bool) (a b : RollupRow) : Bool :=
  let ka := colValue col a
  let kb := colValue col b
  if ka = kb then
    if dirAsc then SqlVal.ascLe (skuVal b) (skuVal a)
    else SqlVal.ascLe (skuVal a) (skuVal b)
  else
    if dirAsc then SqlVal.ascLe ka kb
    else SqlVal.ascLe kb ka

/-- Proposition form of `rowLeB`, used with `List.insertionSort`. -/
def rowLe (col : String) (dirAsc : Bool) (a b : RollupRow) : Prop :=
  rowLeB col dirAsc a b = true

instance rowLeDecidable (col : String) (dirAsc : Bool) :
    DecidableRel (rowLe col dirAsc) := fun a b => by
  unfold rowLe
  infer_instance

/-- Rollup rows in `ORDER BY` order (a sorted permutation of the grouped
result set — the database likewise promises any sorted permutation). -/
def sortedRollup (db : List Row) (q : Query) : List RollupRow :=
  List.insertionSort
    (rowLe (sortColOf q.sortBy) (sortDirOf q.sortDir = "ASC"))
    (rollupRows db q)

/-- Response shape of `/api/po/lines`. -/
structure LinesResp where
  total : Nat
  page : Int
  pageSize : Int
  data : List RollupRow
deriving DecidableEq

/-- Core of the lines endpoint once `page` and `pageSize` have been parsed
to numbers: `LIMIT pageSize OFFSET (page-1)*pageSize` over the sorted
rollup, next to the independent count query. -/
def linesCore (db : List Row) (q : Query) (page pageSize : Int) : LinesResp :=
  let offset := (page - 1) * pageSize
  { total := linesTotal db q
    page := page
    pageSize := pageSize
    data := ((sortedRollup db q).drop offset.toNat).take pageSize.toNat }

/-- Paging stage of `GET /api/po/lines`: the failure modes attributable to
the `page`/`pageSize` parameters. A `NaN` effective page or page size is
interpolated as the text `NaN` into `LIMIT`/`OFFSET`, which is a Postgres
syntax error: the request then fails with a 500 error, modelled as `none`.
The additional failure mode attributable to `sortBy` is layered on top in
`linesRequest`. -/
def linesEndpoint (db : List Row) (q : Query) : Option LinesResp :=
  match effPage q.page, effPageSize q.pageSize with
  | some page, some pageSize => some (linesCore db q page pageSize)
  | _, _ => none

/-- Full model of `GET /api/po/lines`: when `sortBy` names an inherited
`Object.prototype` member, the truthy lookup bypasses the `|| month`
fallback and its stringification (`function ...` or `[object Object]`) is
interpolated into `ORDER BY`, which is a Postgres syntax error — the
request fails with a 500 error, modelled as `none`. -/
def linesRequest (db : List Row) (q : Query) : Option LinesResp :=
  match SORTABLE q.sortBy with
  | .inherited _ => none
  | _ => linesEndpoint db q

/-- Result row of the product typeahead. -/
structure ProductHit where
  tmpl_id : Int
  product_name : Option String
  template_sku : Option String
deriving DecidableEq

/-- Ascending comparison on nullable text used by the typeahead
`ORDER BY`. -/
def hitLe (f : ProductHit → Option String) (a b : ProductHit) : Prop :=
  SqlVal.ascLe (optSVal (f a)) (optSVal (f b)) = true

instance hitLeDecidable (f : ProductHit → Option String) :
    DecidableRel (hitLe f) := fun a b => by
  unfold hitLe
  infer_instance

/-- Model of `GET /api/po/products`. The first component records whether the
database was queried at all: a trimmed query string shorter than 1
character returns an empty list before any query is issued. -/
def productsEndpoint (db : List Row) (qy : Query) : Bool × List ProductHit :=
  let q := jsTrim qy.q
  if q.length < 1 then (false, [])
  else
    let bw := buildWhere qy
    let pat := "%" ++ q ++ "%"
    let hits :=
      (db.filter (fun r =>
        decide (TV.and (evalWhere bw r)
          (TV.or (ilikeTV (r.nameEn.map sqlTrim) pat)
            (ilikeTV r.defaultCodePT pat)) = TV.t))).map
        (fun r => ProductHit.mk r.productTmplId (r.nameEn.map sqlTrim) r.defaultCodePT)
    (true,
      (List.insertionSort (hitLe (fun h => h.product_name)) hits.dedup).take 20)

/-- Result row of the SKU typeahead. -/
structure SkuHit where
  sku : Option String
  product_name : Option String
deriving DecidableEq

/-- Ascending comparison on the `sku` column of the SKU typeahead. -/
def skuHitLe (a b : SkuHit) : Prop :=
  SqlVal.ascLe (optSVal a.sku) (optSVal b.sku) = true

instance skuHitLeDecidable : DecidableRel skuHitLe := fun a b => by
  unfold skuHitLe
  infer_instance

/-- Optional template scoping of the SKU typeahead: an extra equality
predicate when `tmplId` parses to a positive integer. -/
def tmplScope (qy : Query) (r : Row) : Bool :=
  if qy.tmplId ≠ "" then
    match jsParseInt qy.tmplId with
    | some id => if 0 < id then decide (r.productTmplId = id) else true
    | none => true
  else true

/-- Model of `GET /api/po/skus`, with the same short-circuit flag as
`productsEndpoint`. -/
def skusEndpoint (db : List Row) (qy : Query) : Bool × List SkuHit :=
  let q := jsTrim qy.q
  if q.length < 1 then (false, [])
  else
    let bw := buildWhere qy
    let pat := "%" ++ q ++ "%"
    let hits :=
      (db.filter (fun r =>
        tmplScope qy r &&
          decide (TV.and (evalWhere bw r)
            (TV.or (ilikeTV (rowSku r) pat)
              (ilikeTV (r.nameEn.map sqlTrim) pat)) = TV.t))).map
        (fun r => SkuHit.mk (rowSku r) (r.nameEn.map sqlTrim))
    (true, (List.insertionSort skuHitLe hits.dedup).take 20)

/-! Basic lemmas about three-valued logic and the WHERE-clause fold. -/

theorem tvOfBool_eq_t {b : Bool} : tvOfBool b = TV.t ↔ b = true := by
  cases b <;> simp [tvOfBool]

theorem TV.and_eq_t {a b : TV} : TV.and a b = TV.t ↔ a = TV.t ∧ b = TV.t := by
  cases a <;> cases b <;> simp [TV.and]

theorem foldl_and_eq_t {α : Type} (f : α → TV) (l : List α) (acc : TV) :
    l.foldl (fun a c => TV.and a (f c)) acc = TV.t ↔
      acc = TV.t ∧ ∀ c ∈ l, f c = TV.t := by
  induction l generalizing acc with
  | nil => simp
  | cons c t ih =>
    rw [List.foldl_cons, ih]
    rw [TV.and_eq_t]
    constructor
    · rintro ⟨⟨h1, h2⟩, h3⟩
      exact ⟨h1, by simpa using ⟨h2, h3⟩⟩
    · rintro ⟨h1, h2⟩
      simp only [List.mem_cons] at h2
      exact ⟨⟨h1, h2 c (Or.inl rfl)⟩, fun d hd => h2 d (Or.inr hd)⟩

/-- The compiled WHERE clause is satisfied exactly when every fragment of
`conds` evaluates to true: the fragments are conjoined. -/
theorem evalWhere_eq_t (b : BW) (r : Row) :
    evalWhere b r = TV.t ↔ ∀ c ∈ b.conds, evalCond b.params r c = TV.t := by
  unfold evalWhere
  rw [foldl_and_eq_t]
  simp

theorem evalWhere_ne_t_of_mem {b : BW} {r : Row} {c : Cond}
    (hc : c ∈ b.conds) (he : evalCond b.params r c ≠ TV.t) :
    evalWhere b r ≠ TV.t := by
  intro h
  exact he ((evalWhere_eq_t b r).mp h c hc)

/-! Structural lemmas about the builder steps: each step only appends to the
parameter list and to the fragment list. -/

/-- The second builder state extends the first by appended suffixes. -/
def BW.Ext (b b2 : BW) : Prop :=
  ∃ ps cs, b2.params = b.params ++ ps ∧ b2.conds = b.conds ++ cs

theorem BW.Ext.rfl (b : BW) : BW.Ext b b := ⟨[], [], by simp, by simp⟩

theorem BW.Ext.trans {a b c : BW} (h1 : BW.Ext a b) (h2 : BW.Ext b c) :
    BW.Ext a c := by
  obtain ⟨ps1, cs1, hp1, hc1⟩ := h1
  obtain ⟨ps2, cs2, hp2, hc2⟩ := h2
  exact ⟨ps1 ++ ps2, cs1 ++ cs2, by simp [hp2, hp1], by simp [hc2, hc1]⟩

theorem ext_stepDateTo (q : Query) (b : BW) : BW.Ext b (stepDateTo q b) := by
  unfold stepDateTo
  split
  · exact ⟨_, _, Eq.refl _, Eq.refl _⟩
  · exact ⟨[], _, by simp, Eq.refl _⟩

theorem ext_stepCat (lvl : Nat) (v : String) (b : BW) :
    BW.Ext b (stepCat lvl v b) := by
  unfold stepCat
  split
  · exact ⟨_, _, Eq.refl _, Eq.refl _⟩
  · exact BW.Ext.rfl b

theorem ext_stepSearch (q : Query) (b : BW) : BW.Ext b (stepSearch q b) := by
  unfold stepSearch
  split
  · exact ⟨_, _, Eq.refl _, Eq.refl _⟩
  · exact BW.Ext.rfl b

theorem ext_stepSkus (q : Query) (b : BW) : BW.Ext b (stepSkus q b) := by
  unfold stepSkus
  split
  · dsimp only
    split
    · exact ⟨_, _, Eq.refl _, Eq.refl _⟩
    · exact BW.Ext.rfl b
  · exact BW.Ext.rfl b

theorem ext_stepTmpl (q : Query) (b : BW) : BW.Ext b (stepTmpl q b) := by
  unfold stepTmpl
  split
  · dsimp only
    split
    · exact ⟨_, _, Eq.refl _, Eq.refl _⟩
    · exact BW.Ext.rfl b
  · exact BW.Ext.rfl b

/-- Parameter pushed by the date-from step. -/
def fromParam (q : Query) : Param :=
  Param.str ((if q.dateFrom = "" then "2025-01" else q.dateFrom) ++ "-01")

/-- Builder state after the two date steps. -/
def bw2 (q : Query) : BW := stepDateTo q (stepDateFrom q bwInit)

theorem bw2_eq (q : Query) :
    bw2 q =
      if q.dateTo ≠ "" then
        ⟨[fromParam q, Param.str (nextMonthStr q.dateTo)],
          [Cond.stateIn ["purchase", "done"], Cond.dateGe 1, Cond.dateLtParam 2]⟩
      else
        ⟨[fromParam q],
          [Cond.stateIn ["purchase", "done"], Cond.dateGe 1,
            Cond.dateLtLit "2099-01-01"]⟩ := by
  unfold bw2 stepDateTo stepDateFrom bwInit fromParam
  split <;> simp

theorem buildWhere_ext_bw2 (q : Query) : BW.Ext (bw2 q) (buildWhere q) := by
  unfold buildWhere
  have h1 := ext_stepCat 1 q.catL1 (bw2 q)
  have h2 := ext_stepCat 2 q.catL2 (stepCat 1 q.catL1 (bw2 q))
  have h3 := ext_stepCat 3 q.catL3 (stepCat 2 q.catL2 (stepCat 1 q.catL1 (bw2 q)))
  have h4 := ext_stepSearch q (stepCat 3 q.catL3 (stepCat 2 q.catL2 (stepCat 1 q.catL1 (bw2 q))))
  have h5 := ext_stepSkus q (stepSearch q (stepCat 3 q.catL3 (stepCat 2 q.catL2 (stepCat 1 q.catL1 (bw2 q)))))
  have h6 := ext_stepTmpl q (stepSkus q (stepSearch q (stepCat 3 q.catL3 (stepCat 2 q.catL2 (stepCat 1 q.catL1 (bw2 q))))))
  exact ((((h1.trans h2).trans h3).trans h4).trans h5).trans h6

theorem ext_conds_getElem {b b2 : BW} (h : BW.Ext b b2) {i : Nat}
    (hi : i < b.conds.length) : b2.conds[i]? = b.conds[i]? := by
  obtain ⟨ps, cs, _, hc⟩ := h
  rw [hc, List.getElem?_append]
  simp [hi]

theorem ext_params_getElem {b b2 : BW} (h : BW.Ext b b2) {i : Nat}
    (hi : i < b.params.length) : b2.params[i]? = b.params[i]? := by
  obtain ⟨ps, cs, hp, _⟩ := h
  rw [hp, List.getElem?_append]
  simp [hi]

/-! Membership of a fragment in the compiled `conds`, step by step. -/

theorem mem_stepDateTo {c : Cond} (q : Query) (b : BW) :
    c ∈ (stepDateTo q b).conds ↔
      c ∈ b.conds ∨ (q.dateTo ≠ "" ∧ c = Cond.dateLtParam (b.params.length + 1)) ∨
        (q.dateTo = "" ∧ c = Cond.dateLtLit "2099-01-01") := by
  unfold stepDateTo
  split
  · next h => simp [h, List.mem_append]
  · next h =>
    simp only [ne_eq, not_not] at h
    simp [h, List.mem_append]

theorem mem_stepCat {c : Cond} (lvl : Nat) (v : String) (b : BW) :
    c ∈ (stepCat lvl v b).conds ↔
      c ∈ b.conds ∨ (v ≠ "" ∧ c = Cond.catEq lvl (b.params.length + 1)) := by
  unfold stepCat
  split
  · next h => simp [h, List.mem_append]
  · next h =>
    simp only [ne_eq, not_not] at h
    simp [h]

theorem mem_stepSearch {c : Cond} (q : Query) (b : BW) :
    c ∈ (stepSearch q b).conds ↔
      c ∈ b.conds ∨ (q.search ≠ "" ∧ c = Cond.searchLike (b.params.length + 1)) := by
  unfold stepSearch
  split
  · next h => simp [h, List.mem_append]
  · next h =>
    simp only [ne_eq, not_not] at h
    simp [h]

theorem mem_stepSkus {c : Cond} (q : Query) (b : BW) :
    c ∈ (stepSkus q b).conds ↔
      c ∈ b.conds ∨ (skuListOf q ≠ [] ∧
        c = Cond.skuIn ((skuListOf q).mapIdx (fun i _ => b.params.length + 1 + i))) := by
  unfold stepSkus
  split
  · next hs =>
    dsimp only
    split
    · next h => simp [h, List.mem_append]
    · next h =>
      simp only [ne_eq, not_not] at h
      simp [h]
  · next hs =>
    simp only [ne_eq, not_not] at hs
    have : skuListOf q = [] := by
      rw [skuListOf, hs]
      decide
    simp [this]

theorem mem_stepTmpl {c : Cond} (q : Query) (b : BW) :
    c ∈ (stepTmpl q b).conds ↔
      c ∈ b.conds ∨ (tmplIdsOf q ≠ [] ∧
        c = Cond.tmplIn ((tmplIdsOf q).mapIdx (fun i _ => b.params.length + 1 + i))) := by
  unfold stepTmpl
  split
  · next hs =>
    dsimp only
    split
    · next h => simp [h, List.mem_append]
    · next h =>
      simp only [ne_eq, not_not] at h
      simp [h]
  · next hs =>
    simp only [ne_eq, not_not] at hs
    have : tmplIdsOf q = [] := by
      rw [tmplIdsOf, hs]
      decide
    simp [this]

/-! Exact shape of each builder step, branch by branch. -/

theorem stepDateFrom_eq (q : Query) (b : BW) :
    stepDateFrom q b =
      ⟨b.params ++ [fromParam q], b.conds ++ [Cond.dateGe (b.params.length + 1)]⟩ := by
  unfold stepDateFrom fromParam
  simp

theorem stepDateTo_eq_pos {q : Query} (h : q.dateTo ≠ "") (b : BW) :
    stepDateTo q b =
      ⟨b.params ++ [Param.str (nextMonthStr q.dateTo)],
        b.conds ++ [Cond.dateLtParam (b.params.length + 1)]⟩ := by
  unfold stepDateTo
  simp [h]

theorem stepDateTo_eq_neg {q : Query} (h : q.dateTo = "") (b : BW) :
    stepDateTo q b = ⟨b.params, b.conds ++ [Cond.dateLtLit "2099-01-01"]⟩ := by
  unfold stepDateTo
  simp [h]

theorem stepCat_eq_pos {v : String} (h : v ≠ "") (lvl : Nat) (b : BW) :
    stepCat lvl v b =
      ⟨b.params ++ [Param.str v], b.conds ++ [Cond.catEq lvl (b.params.length + 1)]⟩ := by
  unfold stepCat
  simp [h]

theorem stepCat_eq_neg {v : String} (h : v = "") (lvl : Nat) (b : BW) :
    stepCat lvl v b = b := by
  unfold stepCat
  simp [h]

theorem stepSearch_eq_pos {q : Query} (h : q.search ≠ "") (b : BW) :
    stepSearch q b =
      ⟨b.params ++ [Param.str ("%" ++ q.search ++ "%")],
        b.conds ++ [Cond.searchLike (b.params.length + 1)]⟩ := by
  unfold stepSearch
  simp [h]

theorem stepSearch_eq_neg {q : Query} (h : q.search = "") (b : BW) :
    stepSearch q b = b := by
  unfold stepSearch
  simp [h]

theorem skuListOf_empty {q : Query} (h : q.skus = "") : skuListOf q = [] := by
  rw [skuListOf, h]
  decide

theorem tmplIdsOf_empty {q : Query} (h : q.productTmplIds = "") : tmplIdsOf q = [] := by
  rw [tmplIdsOf, h]
  decide

theorem stepSkus_eq_pos {q : Query} (h : skuListOf q ≠ []) (b : BW) :
    stepSkus q b =
      ⟨b.params ++ (skuListOf q).map Param.str,
        b.conds ++ [Cond.skuIn ((skuListOf q).mapIdx (fun i _ => b.params.length + 1 + i))]⟩ := by
  have hs : q.skus ≠ "" := fun he => h (skuListOf_empty he)
  unfold stepSkus
  simp [hs, h]

theorem stepSkus_eq_neg {q : Query} (h : skuListOf q = []) (b : BW) :
    stepSkus q b = b := by
  unfold stepSkus
  split
  · dsimp only
    simp [h]
  · rfl

theorem stepTmpl_eq_pos {q : Query} (h : tmplIdsOf q ≠ []) (b : BW) :
    stepTmpl q b =
      ⟨b.params ++ (tmplIdsOf q).map Param.int,
        b.conds ++ [Cond.tmplIn ((tmplIdsOf q).mapIdx (fun i _ => b.params.length + 1 + i))]⟩ := by
  have hs : q.productTmplIds ≠ "" := fun he => h (tmplIdsOf_empty he)
  unfold stepTmpl
  simp [hs, h]

theorem stepTmpl_eq_neg {q : Query} (h : tmplIdsOf q = []) (b : BW) :
    stepTmpl q b = b := by
  unfold stepTmpl
  split
  · dsimp only
    simp [h]
  · rfl

/-! Placeholder bookkeeping: the occurrence list of `$k` indices in the
compiled clause is sorted, and its distinct values are exactly
`1 .. params.length` in order. -/

theorem dedup_append_disjoint {α : Type} [DecidableEq α] (l₁ l₂ : List α)
    (h : ∀ a ∈ l₁, a ∉ l₂) : (l₁ ++ l₂).dedup = l₁.dedup ++ l₂.dedup := by
  induction l₁ with
  | nil => simp
  | cons a t ih =>
    have ha : a ∉ l₂ := h a (List.mem_cons_self a t)
    have ht : ∀ x ∈ t, x ∉ l₂ := fun x hx => h x (List.mem_cons_of_mem a hx)
    by_cases hat : a ∈ t
    · rw [List.cons_append, List.dedup_cons_of_mem (by simp [hat]),
        List.dedup_cons_of_mem hat, ih ht]
    · have hmem : a ∉ t ++ l₂ := by simp [hat, ha]
      rw [List.cons_append, List.dedup_cons_of_not_mem hmem,
        List.dedup_cons_of_not_mem hat, ih ht, List.cons_append]

theorem range'_cons_eq (c n : Nat) :
    List.range' c (n + 1) = c :: List.range' (c + 1) n := rfl

theorem mapIdx_const_add {α : Type} (l : List α) (c : Nat) :
    l.mapIdx (fun i _ => c + i) = List.range' c l.length := by
  induction l generalizing c with
  | nil => simp
  | cons a t ih =>
    have hfun : (fun i (_ : α) => c + (i + 1)) = (fun i (_ : α) => (c + 1) + i) := by
      funext i x
      omega
    simp only [List.mapIdx_cons, List.length_cons, range'_cons_eq, Nat.add_zero]
    rw [hfun, ih (c + 1)]

theorem sorted_le_range' (s n : Nat) : (List.range' s n).Sorted (· ≤ ·) := by
  induction n generalizing s with
  | zero => simp
  | succ n ih =>
    rw [range'_cons_eq, List.sorted_cons]
    refine ⟨fun b hb => ?_, ih (s + 1)⟩
    rw [List.mem_range'] at hb
    obtain ⟨i, _, rfl⟩ := hb
    omega

theorem dedup_range' (s n : Nat) : (List.range' s n).dedup = List.range' s n :=
  List.dedup_eq_self.mpr (List.nodup_range' s n 1)

/-- The placeholder invariant maintained along the builder pipeline. -/
def PhInv (b : BW) : Prop :=
  (whPlaceholders b).Sorted (· ≤ ·) ∧
    (whPlaceholders b).dedup = List.range' 1 b.params.length

theorem whPlaceholders_append (ps : List Param) (cs : List Cond) (c : Cond) :
    whPlaceholders ⟨ps, cs ++ [c]⟩ = whPlaceholders ⟨ps, cs⟩ ++ c.placeholders := by
  simp [whPlaceholders]

theorem phInv_add {b : BW} (hb : PhInv b) (ps : List Param) (c : Cond)
    (hs : c.placeholders.Sorted (· ≤ ·))
    (hd : c.placeholders.dedup = List.range' (b.params.length + 1) ps.length) :
    PhInv ⟨b.params ++ ps, b.conds ++ [c]⟩ := by
  obtain ⟨hb1, hb2⟩ := hb
  have hwh : whPlaceholders ⟨b.params ++ ps, b.conds ++ [c]⟩ =
      whPlaceholders b ++ c.placeholders := by
    simp [whPlaceholders]
  have hmem1 : ∀ x ∈ whPlaceholders b, x ≤ b.params.length := by
    intro x hx
    have h2 : x ∈ (whPlaceholders b).dedup := List.mem_dedup.mpr hx
    rw [hb2, List.mem_range'] at h2
    obtain ⟨i, hi, rfl⟩ := h2
    omega
  have hmem2 : ∀ x ∈ c.placeholders, b.params.length + 1 ≤ x := by
    intro x hx
    have h2 : x ∈ c.placeholders.dedup := List.mem_dedup.mpr hx
    rw [hd, List.mem_range'] at h2
    obtain ⟨i, hi, rfl⟩ := h2
    omega
  constructor
  · rw [hwh]
    unfold List.Sorted at hb1 hs ⊢
    rw [List.pairwise_append]
    exact ⟨hb1, hs, fun a ha x hx => le_trans (hmem1 a ha) (by have := hmem2 x hx; omega)⟩
  · rw [hwh, dedup_append_disjoint _ _
      (fun a ha hmem => by have h1 := hmem1 a ha; have h2 := hmem2 a hmem; omega),
      hb2, hd]
    have hr := List.range'_append 1 b.params.length ps.length 1
    simp only [one_mul] at hr
    rw [show 1 + b.params.length = b.params.length + 1 from by omega] at hr
    rw [hr, List.length_append]
    congr 1
    omega

theorem phInv_stepDateFrom (q : Query) {b : BW} (hb : PhInv b) :
    PhInv (stepDateFrom q b) := by
  rw [stepDateFrom_eq]
  refine phInv_add hb [fromParam q] _ (List.sorted_singleton _) ?_
  show ([b.params.length + 1] : List Nat).dedup = _
  rw [List.dedup_cons_of_not_mem (by simp), List.dedup_nil]
  rfl

theorem phInv_stepDateTo (q : Query) {b : BW} (hb : PhInv b) :
    PhInv (stepDateTo q b) := by
  by_cases h : q.dateTo = ""
  · rw [stepDateTo_eq_neg h]
    have := phInv_add hb [] (Cond.dateLtLit "2099-01-01") List.sorted_nil rfl
    simpa using this
  · rw [stepDateTo_eq_pos h]
    refine phInv_add hb _ _ (List.sorted_singleton _) ?_
    show ([b.params.length + 1] : List Nat).dedup = _
    rw [List.dedup_cons_of_not_mem (by simp), List.dedup_nil]
    rfl

theorem phInv_stepCat (lvl : Nat) (v : String) {b : BW} (hb : PhInv b) :
    PhInv (stepCat lvl v b) := by
  by_cases h : v = ""
  · rw [stepCat_eq_neg h]
    exact hb
  · rw [stepCat_eq_pos h]
    refine phInv_add hb _ _ (List.sorted_singleton _) ?_
    show ([b.params.length + 1] : List Nat).dedup = _
    rw [List.dedup_cons_of_not_mem (by simp), List.dedup_nil]
    rfl

theorem phInv_stepSearch (q : Query) {b : BW} (hb : PhInv b) :
    PhInv (stepSearch q b) := by
  by_cases h : q.search = ""
  · rw [stepSearch_eq_neg h]
    exact hb
  · rw [stepSearch_eq_pos h]
    refine phInv_add hb _ _ ?_ ?_
    · show ([b.params.length + 1, b.params.length + 1] : List Nat).Sorted (· ≤ ·)
      simp [List.sorted_cons]
    · show ([b.params.length + 1, b.params.length + 1] : List Nat).dedup = _
      rw [List.dedup_cons_of_mem (by simp), List.dedup_cons_of_not_mem (by simp),
        List.dedup_nil]
      rfl

theorem phInv_stepSkus (q : Query) {b : BW} (hb : PhInv b) :
    PhInv (stepSkus q b) := by
  by_cases h : skuListOf q = []
  · rw [stepSkus_eq_neg h]
    exact hb
  · rw [stepSkus_eq_pos h]
    refine phInv_add hb _ _ ?_ ?_
    · show ((skuListOf q).mapIdx (fun i _ => b.params.length + 1 + i)).Sorted (· ≤ ·)
      rw [mapIdx_const_add]
      exact sorted_le_range' _ _
    · show ((skuListOf q).mapIdx (fun i _ => b.params.length + 1 + i)).dedup = _
      rw [mapIdx_const_add, dedup_range', List.length_map]

theorem phInv_stepTmpl (q : Query) {b : BW} (hb : PhInv b) :
    PhInv (stepTmpl q b) := by
  by_cases h : tmplIdsOf q = []
  · rw [stepTmpl_eq_neg h]
    exact hb
  · rw [stepTmpl_eq_pos h]
    refine phInv_add hb _ _ ?_ ?_
    · show ((tmplIdsOf q).mapIdx (fun i _ => b.params.length + 1 + i)).Sorted (· ≤ ·)
      rw [mapIdx_const_add]
      exact sorted_le_range' _ _
    · show ((tmplIdsOf q).mapIdx (fun i _ => b.params.length + 1 + i)).dedup = _
      rw [mapIdx_const_add, dedup_range', List.length_map]

theorem phInv_bwInit : PhInv bwInit :=
  ⟨List.sorted_nil, rfl⟩

theorem phInv_buildWhere (q : Query) : PhInv (buildWhere q) := by
  unfold buildWhere
  exact phInv_stepTmpl q (phInv_stepSkus q (phInv_stepSearch q
    (phInv_stepCat 3 q.catL3 (phInv_stepCat 2 q.catL2 (phInv_stepCat 1 q.catL1
      (phInv_stepDateTo q (phInv_stepDateFrom q phInv_bwInit)))))))

/-! Named intermediate builder states of the pipeline. -/

/-- State after the first category step. -/
def bwC1 (q : Query) : BW := stepCat 1 q.catL1 (bw2 q)

/-- State after the second category step. -/
def bwC2 (q : Query) : BW := stepCat 2 q.catL2 (bwC1 q)

/-- State after the third category step. -/
def bwC3 (q : Query) : BW := stepCat 3 q.catL3 (bwC2 q)

/-- State after the free-text search step. -/
def bwSearch (q : Query) : BW := stepSearch q (bwC3 q)

/-- State after the SKU step. -/
def bwSkus (q : Query) : BW := stepSkus q (bwSearch q)

/-- Full membership description of the compiled fragment list. -/
theorem mem_buildWhere {c : Cond} (q : Query) :
    c ∈ (buildWhere q).conds ↔
      c ∈ (bw2 q).conds
      ∨ (q.catL1 ≠ "" ∧ c = Cond.catEq 1 ((bw2 q).params.length + 1))
      ∨ (q.catL2 ≠ "" ∧ c = Cond.catEq 2 ((bwC1 q).params.length + 1))
      ∨ (q.catL3 ≠ "" ∧ c = Cond.catEq 3 ((bwC2 q).params.length + 1))
      ∨ (q.search ≠ "" ∧ c = Cond.searchLike ((bwC3 q).params.length + 1))
      ∨ (skuListOf q ≠ [] ∧
          c = Cond.skuIn ((skuListOf q).mapIdx
            (fun i _ => (bwSearch q).params.length + 1 + i)))
      ∨ (tmplIdsOf q ≠ [] ∧
          c = Cond.tmplIn ((tmplIdsOf q).mapIdx
            (fun i _ => (bwSkus q).params.length + 1 + i))) := by
  change c ∈ (stepTmpl q (bwSkus q)).conds ↔ _
  rw [mem_stepTmpl]
  unfold bwSkus
  rw [mem_stepSkus]
  unfold bwSearch
  rw [mem_stepSearch]
  unfold bwC3
  rw [mem_stepCat]
  unfold bwC2
  rw [mem_stepCat]
  unfold bwC1
  rw [mem_stepCat]
  tauto

theorem bw2_conds_length (q : Query) : (bw2 q).conds.length = 3 := by
  rw [bw2_eq]
  split <;> rfl

theorem bw_conds0 (q : Query) :
    (buildWhere q).conds[0]? = some (Cond.stateIn ["purchase", "done"]) := by
  rw [ext_conds_getElem (buildWhere_ext_bw2 q) (by rw [bw2_conds_length]; omega)]
  rw [bw2_eq]
  split <;> rfl

theorem bw_conds1 (q : Query) :
    (buildWhere q).conds[1]? = some (Cond.dateGe 1) := by
  rw [ext_conds_getElem (buildWhere_ext_bw2 q) (by rw [bw2_conds_length]; omega)]
  rw [bw2_eq]
  split <;> rfl

theorem bw_conds2_pos (q : Query) (h : q.dateTo ≠ "") :
    (buildWhere q).conds[2]? = some (Cond.dateLtParam 2) := by
  rw [ext_conds_getElem (buildWhere_ext_bw2 q) (by rw [bw2_conds_length]; omega)]
  rw [bw2_eq]
  simp [h]

theorem bw_conds2_neg (q : Query) (h : q.dateTo = "") :
    (buildWhere q).conds[2]? = some (Cond.dateLtLit "2099-01-01") := by
  rw [ext_conds_getElem (buildWhere_ext_bw2 q) (by rw [bw2_conds_length]; omega)]
  rw [bw2_eq]
  simp [h]

theorem bw_params1_pos (q : Query) (h : q.dateTo ≠ "") :
    (buildWhere q).params[1]? = some (Param.str (nextMonthStr q.dateTo)) := by
  have hlen : 1 < (bw2 q).params.length := by
    rw [bw2_eq]
    simp [h]
  rw [ext_params_getElem (buildWhere_ext_bw2 q) hlen]
  rw [bw2_eq]
  simp [h]

/-! Presence of each optional fragment, characterised at the level of
`buildWhere`. -/

theorem bw2_no_catEq (q : Query) (lvl k : Nat) :
    Cond.catEq lvl k ∉ (bw2 q).conds := by
  rw [bw2_eq]
  split <;> simp

theorem bw_mem_catEq1 (q : Query) :
    (∃ k, Cond.catEq 1 k ∈ (buildWhere q).conds) ↔ q.catL1 ≠ "" := by
  constructor
  · rintro ⟨k, hk⟩
    rw [mem_buildWhere] at hk
    rcases hk with h | h | h | h | h | h | h
    · exact absurd h (bw2_no_catEq q 1 k)
    · exact h.1
    · exact absurd h.2 (by simp)
    · exact absurd h.2 (by simp)
    · exact absurd h.2 (by simp)
    · exact absurd h.2 (by simp)
    · exact absurd h.2 (by simp)
  · intro h
    exact ⟨_, (mem_buildWhere q).mpr (Or.inr (Or.inl ⟨h, rfl⟩))⟩

theorem bw_mem_catEq2 (q : Query) :
    (∃ k, Cond.catEq 2 k ∈ (buildWhere q).conds) ↔ q.catL2 ≠ "" := by
  constructor
  · rintro ⟨k, hk⟩
    rw [mem_buildWhere] at hk
    rcases hk with h | h | h | h | h | h | h
    · exact absurd h (bw2_no_catEq q 2 k)
    · exact absurd h.2 (by simp)
    · exact h.1
    · exact absurd h.2 (by simp)
    · exact absurd h.2 (by simp)
    · exact absurd h.2 (by simp)
    · exact absurd h.2 (by simp)
  · intro h
    exact ⟨_, (mem_buildWhere q).mpr (Or.inr (Or.inr (Or.inl ⟨h, rfl⟩)))⟩

theorem bw_mem_catEq3 (q : Query) :
    (∃ k, Cond.catEq 3 k ∈ (buildWhere q).conds) ↔ q.catL3 ≠ "" := by
  constructor
  · rintro ⟨k, hk⟩
    rw [mem_buildWhere] at hk
    rcases hk with h | h | h | h | h | h | h
    · exact absurd h (bw2_no_catEq q 3 k)
    · exact absurd h.2 (by simp)
    · exact absurd h.2 (by simp)
    · exact h.1
    · exact absurd h.2 (by simp)
    · exact absurd h.2 (by simp)
    · exact absurd h.2 (by simp)
  · intro h
    exact ⟨_, (mem_buildWhere q).mpr (Or.inr (Or.inr (Or.inr (Or.inl ⟨h, rfl⟩))))⟩

theorem bw_mem_searchLike (q : Query) :
    (∃ k, Cond.searchLike k ∈ (buildWhere q).conds) ↔ q.search ≠ "" := by
  constructor
  · rintro ⟨k, hk⟩
    rw [mem_buildWhere] at hk
    rcases hk with h | h | h | h | h | h | h
    · rw [bw2_eq] at h
      revert h
      split <;> simp
    · exact absurd h.2 (by simp)
    · exact absurd h.2 (by simp)
    · exact absurd h.2 (by simp)
    · exact h.1
    · exact absurd h.2 (by simp)
    · exact absurd h.2 (by simp)
  · intro h
    exact ⟨_, (mem_buildWhere q).mpr
      (Or.inr (Or.inr (Or.inr (Or.inr (Or.inl ⟨h, rfl⟩)))))⟩

theorem bw_mem_skuIn (q : Query) :
    (∃ ks, Cond.skuIn ks ∈ (buildWhere q).conds) ↔ skuListOf q ≠ [] := by
  constructor
  · rintro ⟨ks, hk⟩
    rw [mem_buildWhere] at hk
    rcases hk with h | h | h | h | h | h | h
    · rw [bw2_eq] at h
      revert h
      split <;> simp
    · exact absurd h.2 (by simp)
    · exact absurd h.2 (by simp)
    · exact absurd h.2 (by simp)
    · exact absurd h.2 (by simp)
    · exact h.1
    · exact absurd h.2 (by simp)
  · intro h
    exact ⟨_, (mem_buildWhere q).mpr
      (Or.inr (Or.inr (Or.inr (Or.inr (Or.inr (Or.inl ⟨h, rfl⟩))))))⟩

theorem bw_mem_tmplIn (q : Query) :
    (∃ ks, Cond.tmplIn ks ∈ (buildWhere q).conds) ↔ tmplIdsOf q ≠ [] := by
  constructor
  · rintro ⟨ks, hk⟩
    rw [mem_buildWhere] at hk
    rcases hk with h | h | h | h | h | h | h
    · rw [bw2_eq] at h
      revert h
      split <;> simp
    · exact absurd h.2 (by simp)
    · exact absurd h.2 (by simp)
    · exact absurd h.2 (by simp)
    · exact absurd h.2 (by simp)
    · exact absurd h.2 (by simp)
    · exact h.1
  · intro h
    exact ⟨_, (mem_buildWhere q).mpr
      (Or.inr (Or.inr (Or.inr (Or.inr (Or.inr (Or.inr ⟨h, rfl⟩))))))⟩

theorem bw_skuIn_canonical (q : Query) {ks : List Nat}
    (h1 : Cond.skuIn ks ∈ (buildWhere q).conds) :
    ks = (skuListOf q).mapIdx (fun i _ => (bwSearch q).params.length + 1 + i) := by
  rw [mem_buildWhere] at h1
  rcases h1 with h | h | h | h | h | h | h
  · exfalso
    revert h
    rw [bw2_eq]
    split <;> simp
  · exact absurd h.2 (by simp)
  · exact absurd h.2 (by simp)
  · exact absurd h.2 (by simp)
  · exact absurd h.2 (by simp)
  · exact Cond.skuIn.inj h.2
  · exact absurd h.2 (by simp)

theorem bw_skuIn_unique (q : Query) {ks ks2 : List Nat}
    (h1 : Cond.skuIn ks ∈ (buildWhere q).conds)
    (h2 : Cond.skuIn ks2 ∈ (buildWhere q).conds) : ks = ks2 :=
  (bw_skuIn_canonical q h1).trans (bw_skuIn_canonical q h2).symm

theorem bw_tmplIn_canonical (q : Query) {ks : List Nat}
    (h1 : Cond.tmplIn ks ∈ (buildWhere q).conds) :
    ks = (tmplIdsOf q).mapIdx (fun i _ => (bwSkus q).params.length + 1 + i) := by
  rw [mem_buildWhere] at h1
  rcases h1 with h | h | h | h | h | h | h
  · exfalso
    revert h
    rw [bw2_eq]
    split <;> simp
  · exact absurd h.2 (by simp)
  · exact absurd h.2 (by simp)
  · exact absurd h.2 (by simp)
  · exact absurd h.2 (by simp)
  · exact absurd h.2 (by simp)
  · exact Cond.tmplIn.inj h.2

theorem bw_tmplIn_unique (q : Query) {ks ks2 : List Nat}
    (h1 : Cond.tmplIn ks ∈ (buildWhere q).conds)
    (h2 : Cond.tmplIn ks2 ∈ (buildWhere q).conds) : ks = ks2 :=
  (bw_tmplIn_canonical q h1).trans (bw_tmplIn_canonical q h2).symm

theorem bw_mem_dateLtLit (q : Query) :
    (Cond.dateLtLit "2099-01-01" ∈ (buildWhere q).conds) ↔ q.dateTo = "" := by
  constructor
  · intro hk
    rw [mem_buildWhere] at hk
    rcases hk with h | h | h | h | h | h | h
    · rw [bw2_eq] at h
      revert h
      split
      · next hd =>
        intro h
        simp at h
      · next hd =>
        intro _
        simpa using hd
    · exact absurd h.2 (by simp)
    · exact absurd h.2 (by simp)
    · exact absurd h.2 (by simp)
    · exact absurd h.2 (by simp)
    · exact absurd h.2 (by simp)
    · exact absurd h.2 (by simp)
  · intro h
    refine (mem_buildWhere q).mpr (Or.inl ?_)
    rw [bw2_eq]
    simp [h]

/-! Parameter layout of the `IN` fragments and their evaluation as a
disjunction over the selected values. -/

theorem bw_params_sku_shape (q : Query) (h : skuListOf q ≠ []) :
    ∃ T, (buildWhere q).params =
      (bwSearch q).params ++ (skuListOf q).map Param.str ++ T := by
  have hskus : bwSkus q = ⟨(bwSearch q).params ++ (skuListOf q).map Param.str,
      (bwSearch q).conds ++ [Cond.skuIn ((skuListOf q).mapIdx
        (fun i _ => (bwSearch q).params.length + 1 + i))]⟩ := by
    unfold bwSkus
    exact stepSkus_eq_pos h (bwSearch q)
  obtain ⟨ps, cs, hp, _⟩ := ext_stepTmpl q (bwSkus q)
  refine ⟨ps, ?_⟩
  change (stepTmpl q (bwSkus q)).params = _
  rw [hp, hskus]

theorem bw_params_tmpl_shape (q : Query) (h : tmplIdsOf q ≠ []) :
    (buildWhere q).params =
      (bwSkus q).params ++ (tmplIdsOf q).map Param.int ++ [] := by
  change (stepTmpl q (bwSkus q)).params = _
  rw [stepTmpl_eq_pos h]
  simp

theorem getElem_middle {α : Type} (P M T : List α) (i : Nat) (hi : i < M.length) :
    (P ++ M ++ T)[P.length + i]? = M[i]? := by
  have h1 : P.length + i < (P ++ M).length := by
    rw [List.length_append]
    omega
  rw [List.getElem?_append, if_pos h1, List.getElem?_append, if_neg (by omega)]
  congr 1
  omega

theorem eval_skuIn_mem (P T : List Param) (L : List String) (r : Row) (s : String)
    (hs : rowSku r = some s) :
    evalCond (P ++ L.map Param.str ++ T) r
        (Cond.skuIn (List.range' (P.length + 1) L.length)) = TV.t ↔ s ∈ L := by
  have hpe : ∀ i, ∀ hi : i < L.length,
      paramStrEq (P ++ L.map Param.str ++ T) (P.length + 1 + i) s =
        decide (s = L[i]) := by
    intro i hi
    unfold paramStrEq
    rw [show P.length + 1 + i - 1 = P.length + i from by omega,
      getElem_middle P _ T i (by simpa using hi), List.getElem?_map,
      List.getElem?_eq_getElem hi]
    rfl
  have hred : evalCond (P ++ L.map Param.str ++ T) r
      (Cond.skuIn (List.range' (P.length + 1) L.length)) =
      tvOfBool ((List.range' (P.length + 1) L.length).any
        (fun k => paramStrEq (P ++ L.map Param.str ++ T) k s)) := by
    show (match rowSku r with
      | none => if List.range' (P.length + 1) L.length = [] then TV.f else TV.u
      | some s => tvOfBool ((List.range' (P.length + 1) L.length).any
          (fun k => paramStrEq (P ++ L.map Param.str ++ T) k s))) = _
    rw [hs]
  rw [hred, tvOfBool_eq_t, List.any_eq_true]
  constructor
  · rintro ⟨k, hk, hpk⟩
    rw [List.mem_range'] at hk
    obtain ⟨i, hi, rfl⟩ := hk
    rw [show P.length + 1 + 1 * i = P.length + 1 + i from by omega] at hpk
    rw [hpe i hi, decide_eq_true_eq] at hpk
    rw [hpk]
    exact List.getElem_mem hi
  · intro hmem
    obtain ⟨i, hi, hv⟩ := List.mem_iff_getElem.mp hmem
    refine ⟨P.length + 1 + i, ?_, ?_⟩
    · rw [List.mem_range']
      exact ⟨i, hi, by omega⟩
    · rw [hpe i hi, decide_eq_true_eq]
      exact hv.symm

theorem eval_tmplIn_mem (P T : List Param) (L : List Int) (r : Row) :
    evalCond (P ++ L.map Param.int ++ T) r
        (Cond.tmplIn (List.range' (P.length + 1) L.length)) = TV.t ↔
      r.productTmplId ∈ L := by
  have hpe : ∀ i, ∀ hi : i < L.length,
      paramIntEq (P ++ L.map Param.int ++ T) (P.length + 1 + i) r.productTmplId =
        decide (r.productTmplId = L[i]) := by
    intro i hi
    unfold paramIntEq
    rw [show P.length + 1 + i - 1 = P.length + i from by omega,
      getElem_middle P _ T i (by simpa using hi), List.getElem?_map,
      List.getElem?_eq_getElem hi]
    rfl
  have hred : evalCond (P ++ L.map Param.int ++ T) r
      (Cond.tmplIn (List.range' (P.length + 1) L.length)) =
      tvOfBool ((List.range' (P.length + 1) L.length).any
        (fun k => paramIntEq (P ++ L.map Param.int ++ T) k r.productTmplId)) := rfl
  rw [hred, tvOfBool_eq_t, List.any_eq_true]
  constructor
  · rintro ⟨k, hk, hpk⟩
    rw [List.mem_range'] at hk
    obtain ⟨i, hi, rfl⟩ := hk
    rw [show P.length + 1 + 1 * i = P.length + 1 + i from by omega] at hpk
    rw [hpe i hi, decide_eq_true_eq] at hpk
    rw [hpk]
    exact List.getElem_mem hi
  · intro hmem
    obtain ⟨i, hi, hv⟩ := List.mem_iff_getElem.mp hmem
    refine ⟨P.length + 1 + i, ?_, ?_⟩
    · rw [List.mem_range']
      exact ⟨i, hi, by omega⟩
    · rw [hpe i hi, decide_eq_true_eq]
      exact hv.symm

/-! Category segments of short paths. -/

theorem catSegment_none_of_short {p : String} {lvl : Nat}
    (h : (strSplit p " / ").length < lvl) : catSegment (some p) lvl = none := by
  have hnone : (strSplit p " / ")[lvl - 1]? = none :=
    List.getElem?_eq_none (by omega)
  simp [catSegment, split_part, hnone]

theorem eval_catEq_ne_t (ps : List Param) (r : Row) (lvl k : Nat)
    (h : catSegment r.completeName lvl = none) :
    evalCond ps r (Cond.catEq lvl k) ≠ TV.t := by
  have hred : evalCond ps r (Cond.catEq lvl k) =
      match catSegment r.completeName lvl, ps[k - 1]? with
      | some seg, some (Param.str v) => tvOfBool (decide (seg = v))
      | _, _ => TV.u := rfl
  rw [hred, h]
  cases hx : ps[k - 1]? with
  | none => simp
  | some p2 => cases p2 <;> simp

/-! Claim C1. -/

/-- Concrete query used to refute claim C1: only the free-text `search`
filter is set. -/
def qSearchX : Query := { Query.empty with search := "x" }

/-- C1 counterexample: with `search=x` the compiled clause has two
parameters but three placeholder occurrences `$1 $2 $2` — the search
parameter is referenced twice (once on each side of its `OR`), so the
placeholder occurrence count differs from the parameter count and the
index 2 does not appear exactly once. -/
theorem claim_c1_counterexample :
    (buildWhere qSearchX).params.length = 2 ∧
      whPlaceholders (buildWhere qSearchX) = [1, 2, 2] ∧
      ¬ (whPlaceholders (buildWhere qSearchX)).Nodup := by
  refine ⟨by decide, by decide, by decide⟩

/-- C1 (amended): for every filter specification, the placeholder indices
occurring in the compiled predicate are non-decreasing (they appear in the
order the parameters were appended), and their distinct values are exactly
`$1 .. $params.length`, each referenced at least once — so placeholder `$k`
binds the `k`-th parameter. (The claim that "each placeholder index
appears exactly once" fails: the free-text search fragment references its
parameter twice.) -/
theorem claim_c1_amended (q : Query) :
    (whPlaceholders (buildWhere q)).Sorted (· ≤ ·) ∧
      (whPlaceholders (buildWhere q)).dedup =
        List.range' 1 (buildWhere q).params.length :=
  phInv_buildWhere q

/-! Claim C2. -/

/-- C2: with a category filter set at level `N`, a row whose category path
splits into fewer than `N` segments on the `" / "` separator never
satisfies the compiled predicate: the absent segment is `NULL`, so the
level-`N` equality is unknown and the conjunction is never true. -/
theorem claim_c2 (q : Query) (r : Row) (p : String)
    (hp : r.completeName = some p) :
    (q.catL1 ≠ "" → (strSplit p " / ").length < 1 →
        evalWhere (buildWhere q) r ≠ TV.t)
    ∧ (q.catL2 ≠ "" → (strSplit p " / ").length < 2 →
        evalWhere (buildWhere q) r ≠ TV.t)
    ∧ (q.catL3 ≠ "" → (strSplit p " / ").length < 3 →
        evalWhere (buildWhere q) r ≠ TV.t) := by
  refine ⟨?_, ?_, ?_⟩
  · intro hcat hlen
    obtain ⟨k, hk⟩ := (bw_mem_catEq1 q).mpr hcat
    refine evalWhere_ne_t_of_mem hk (eval_catEq_ne_t _ _ _ _ ?_)
    rw [hp]
    exact catSegment_none_of_short hlen
  · intro hcat hlen
    obtain ⟨k, hk⟩ := (bw_mem_catEq2 q).mpr hcat
    refine evalWhere_ne_t_of_mem hk (eval_catEq_ne_t _ _ _ _ ?_)
    rw [hp]
    exact catSegment_none_of_short hlen
  · intro hcat hlen
    obtain ⟨k, hk⟩ := (bw_mem_catEq3 q).mpr hcat
    refine evalWhere_ne_t_of_mem hk (eval_catEq_ne_t _ _ _ _ ?_)
    rw [hp]
    exact catSegment_none_of_short hlen

/-- Query with a level-2 category filter, for the C2 witness. -/
def qCat2 : Query := { Query.empty with catL2 := "Fruit" }

/-- Row whose category path has a single segment, for the C2 witness. -/
def rowShortPath : Row :=
  { state := "purchase"
    dateOrder := ⟨2025, 3, 10⟩
    completeName := some "Food"
    defaultCodePP := some "SKU-X"
    defaultCodePT := none
    nameEn := some "Rice"
    productTmplId := 7
    variantId := 7
    uomId := some 1
    uomName := some "kg"
    productQty := 1
    qtyReceived := 0
    qtyInvoiced := 0
    priceUnit := 3 }

/-- C2 witness: the level-2 filter `Fruit` never matches the one-segment
path `Food`. -/
theorem claim_c2_witness :
    (rowShortPath.completeName = some "Food" ∧ qCat2.catL2 ≠ "" ∧
        (strSplit "Food" " / ").length < 2) ∧
      evalWhere (buildWhere qCat2) rowShortPath ≠ TV.t :=
  ⟨by refine ⟨by decide, by decide, by decide⟩,
    (claim_c2 qCat2 rowShortPath "Food" (by decide)).2.1 (by decide) (by decide)⟩

/-! Claim C5. -/

/-- C5: when `dateTo` is a year-month string, the third compiled fragment
is the strict upper bound `po.date_order < $2::date`, whose parameter is
the first day of the month after `dateTo`, December rolling over to
January 1 of the next year; when `dateTo` is absent, the third fragment is
the far-future literal bound `po.date_order < 2099-01-01`, which holds
for every order date before 2099. -/
theorem claim_c5 (q : Query) :
    (∀ ys ms : String, ∀ y m : Int, q.dateTo ≠ "" →
        strSplit q.dateTo "-" = [ys, ms] →
        jsNumber ys = some y → jsNumber ms = some m →
        (buildWhere q).conds[2]? = some (Cond.dateLtParam 2) ∧
          (buildWhere q).params[1]? = some (Param.str
            (if m = 12 then toString (y + 1) ++ "-01-01"
             else toString y ++ "-" ++ padStart2 (toString (m + 1)) ++ "-01")))
    ∧ (q.dateTo = "" →
        (buildWhere q).conds[2]? = some (Cond.dateLtLit "2099-01-01") ∧
          ∀ r : Row, r.dateOrder.ltB ⟨2099, 1, 1⟩ = true →
            evalCond (buildWhere q).params r (Cond.dateLtLit "2099-01-01") = TV.t) := by
  constructor
  · intro ys ms y m hne hsplit hy hm
    refine ⟨bw_conds2_pos q hne, ?_⟩
    rw [bw_params1_pos q hne]
    have hnext : nextMonthStr q.dateTo =
        (if m = 12 then toString (y + 1) ++ "-01-01"
         else toString y ++ "-" ++ padStart2 (toString (m + 1)) ++ "-01") := by
      unfold nextMonthStr
      rw [hsplit]
      simp only [List.getElem?_cons_zero, List.getElem?_cons_succ, Option.some_bind,
        hy, hm, jsAdd1, jsShow, Option.some.injEq]
    rw [hnext]
  · intro he
    refine ⟨bw_conds2_neg q he, ?_⟩
    intro r hr
    have hparse : parsePgDate "2099-01-01" = some ⟨2099, 1, 1⟩ := by decide
    show (match parsePgDate "2099-01-01" with
      | some d => tvOfBool (r.dateOrder.ltB d)
      | none => TV.u) = TV.t
    rw [hparse]
    show tvOfBool (r.dateOrder.ltB ⟨2099, 1, 1⟩) = TV.t
    rw [hr]
    rfl

/-- Query with `dateTo` in December, for the C5 witness. -/
def qDec : Query := { Query.empty with dateTo := "2025-12" }

/-- C5 witness: `dateTo=2025-12` produces the strict bound at the roll-over
date 2026-01-01, and an absent `dateTo` produces the far-future sentinel,
true at the sample order date. -/
theorem claim_c5_witness :
    ((buildWhere qDec).conds[2]? = some (Cond.dateLtParam 2) ∧
        (buildWhere qDec).params[1]? =
          some (Param.str (toString ((2025 : Int) + 1) ++ "-01-01"))) ∧
      ((buildWhere Query.empty).conds[2]? = some (Cond.dateLtLit "2099-01-01") ∧
        evalCond (buildWhere Query.empty).params rowShortPath
          (Cond.dateLtLit "2099-01-01") = TV.t) := by
  constructor
  · have h := (claim_c5 qDec).1 "2025" "12" 2025 12 (by decide) (by decide)
      (by decide) (by decide)
    simpa using h
  · have h := (claim_c5 Query.empty).2 (by decide)
    exact ⟨h.1, h.2 rowShortPath (by decide)⟩

/-! Claim C9. -/

/-- C9 counterexample: with every filter field absent the compiled clause
still has a third conjunct — the absent `dateTo` contributes the sentinel
upper bound rather than no conjunct. -/
theorem claim_c9_counterexample :
    Query.empty.dateTo = "" ∧
      (buildWhere Query.empty).conds =
        [Cond.stateIn ["purchase", "done"], Cond.dateGe 1,
          Cond.dateLtLit "2099-01-01"] ∧
      (buildWhere Query.empty).conds.length ≠ 2 := by
  refine ⟨by decide, by decide, by decide⟩

/-- C9 (amended): the order-state restriction and the lower-bound date
predicate are always the first two conjuncts; every *selective* filter
field (category levels, search, skus, template ids) contributes a conjunct
exactly when it is non-empty (after parsing, for the array fields), with at
most one `IN` conjunct per array field; `dateTo` is the exception the
original claim misses: its absence still contributes the always-true
sentinel conjunct `po.date_order < 2099-01-01`. All conjuncts are joined
with AND (the clause is true exactly when every conjunct is), and the `IN`
conjuncts hold exactly when the row value equals one of the listed values
(logical OR). -/
theorem claim_c9_amended (q : Query) :
    ((buildWhere q).conds[0]? = some (Cond.stateIn ["purchase", "done"])
      ∧ (buildWhere q).conds[1]? = some (Cond.dateGe 1))
    ∧ ((∃ k, Cond.catEq 1 k ∈ (buildWhere q).conds) ↔ q.catL1 ≠ "")
    ∧ ((∃ k, Cond.catEq 2 k ∈ (buildWhere q).conds) ↔ q.catL2 ≠ "")
    ∧ ((∃ k, Cond.catEq 3 k ∈ (buildWhere q).conds) ↔ q.catL3 ≠ "")
    ∧ ((∃ k, Cond.searchLike k ∈ (buildWhere q).conds) ↔ q.search ≠ "")
    ∧ ((∃ ks, Cond.skuIn ks ∈ (buildWhere q).conds) ↔ skuListOf q ≠ [])
    ∧ ((∃ ks, Cond.tmplIn ks ∈ (buildWhere q).conds) ↔ tmplIdsOf q ≠ [])
    ∧ ((Cond.dateLtLit "2099-01-01" ∈ (buildWhere q).conds) ↔ q.dateTo = "")
    ∧ (∀ ks ks2, Cond.skuIn ks ∈ (buildWhere q).conds →
        Cond.skuIn ks2 ∈ (buildWhere q).conds → ks = ks2)
    ∧ (∀ ks ks2, Cond.tmplIn ks ∈ (buildWhere q).conds →
        Cond.tmplIn ks2 ∈ (buildWhere q).conds → ks = ks2)
    ∧ (∀ r, evalWhere (buildWhere q) r = TV.t ↔
        ∀ c ∈ (buildWhere q).conds, evalCond (buildWhere q).params r c = TV.t)
    ∧ (skuListOf q ≠ [] → ∃ ks, Cond.skuIn ks ∈ (buildWhere q).conds ∧
        ∀ r s, rowSku r = some s →
          (evalCond (buildWhere q).params r (Cond.skuIn ks) = TV.t ↔
            s ∈ skuListOf q))
    ∧ (tmplIdsOf q ≠ [] → ∃ ks, Cond.tmplIn ks ∈ (buildWhere q).conds ∧
        ∀ r, (evalCond (buildWhere q).params r (Cond.tmplIn ks) = TV.t ↔
          r.productTmplId ∈ tmplIdsOf q)) := by
  refine ⟨⟨bw_conds0 q, bw_conds1 q⟩, bw_mem_catEq1 q, bw_mem_catEq2 q,
    bw_mem_catEq3 q, bw_mem_searchLike q, bw_mem_skuIn q, bw_mem_tmplIn q,
    bw_mem_dateLtLit q, fun ks ks2 h1 h2 => bw_skuIn_unique q h1 h2,
    fun ks ks2 h1 h2 => bw_tmplIn_unique q h1 h2,
    fun r => evalWhere_eq_t (buildWhere q) r, ?_, ?_⟩
  · intro h
    obtain ⟨T, hT⟩ := bw_params_sku_shape q h
    refine ⟨(skuListOf q).mapIdx (fun i _ => (bwSearch q).params.length + 1 + i),
      (mem_buildWhere q).mpr
        (Or.inr (Or.inr (Or.inr (Or.inr (Or.inr (Or.inl ⟨h, rfl⟩)))))), ?_⟩
    intro r s hs
    rw [hT, mapIdx_const_add]
    have := eval_skuIn_mem (bwSearch q).params T (skuListOf q) r s hs
    simpa using this
  · intro h
    refine ⟨(tmplIdsOf q).mapIdx (fun i _ => (bwSkus q).params.length + 1 + i),
      (mem_buildWhere q).mpr
        (Or.inr (Or.inr (Or.inr (Or.inr (Or.inr (Or.inr ⟨h, rfl⟩)))))), ?_⟩
    intro r
    rw [bw_params_tmpl_shape q h, mapIdx_const_add]
    have := eval_tmplIn_mem (bwSkus q).params [] (tmplIdsOf q) r
    simpa using this

/-- Query selecting two SKUs, for the C9 witness. -/
def qSkusAB : Query := { Query.empty with skus := "A,B" }

/-- C9 witness: with `skus=A,B` the single `IN` conjunct exists and is the
disjunction over the two selected SKUs. -/
theorem claim_c9_witness :
    skuListOf qSkusAB ≠ [] ∧
      ∃ ks, Cond.skuIn ks ∈ (buildWhere qSkusAB).conds ∧
        ∀ r s, rowSku r = some s →
          (evalCond (buildWhere qSkusAB).params r (Cond.skuIn ks) = TV.t ↔
            s ∈ skuListOf qSkusAB) :=
  ⟨by decide,
    (claim_c9_amended qSkusAB).2.2.2.2.2.2.2.2.2.2.2.1 (by decide)⟩

/-! Claim C3. -/

theorem pctOf_sqlSum (rows : List Row) (f g : Row → ℚ) :
    pctOf (sqlSum (rows.map g)) (sqlSum (rows.map f)) =
      (if (rows.map f).sum = 0 then none
       else some (pgRound1 (100 * (rows.map g).sum / (rows.map f).sum))) := by
  cases rows with
  | nil => simp [sqlSum, pctOf, sqlNullIf]
  | cons a t =>
    have hden : sqlSum ((a :: t).map f) = some ((a :: t).map f).sum := rfl
    have hnum : sqlSum ((a :: t).map g) = some ((a :: t).map g).sum := rfl
    rw [hden, hnum]
    show (match (if ((a :: t).map f).sum = 0 then none
        else some ((a :: t).map f).sum : Option ℚ) with
      | none => none
      | some d => some (pgRound1 (100 * ((some ((a :: t).map g).sum).getD 0) / d))) = _
    by_cases h0 : ((a :: t).map f).sum = 0
    · rw [if_pos h0, if_pos h0]
    · rw [if_neg h0, if_neg h0]
      rfl

/-- C3: the KPI percentage fields are `NULL` exactly when the summed
ordered value over the filtered rows is zero (including the empty result
set), and otherwise equal 100 times the summed received (resp. invoiced)
value divided by the summed ordered value, rounded half away from zero to
one decimal place. -/
theorem claim_c3 (db : List Row) (q : Query) :
    (kpisEndpoint db q).pct_received =
      (if ((filteredRows db q).map (fun r => r.productQty * r.priceUnit)).sum = 0
       then none
       else some (pgRound1 (100 *
         ((filteredRows db q).map (fun r => r.qtyReceived * r.priceUnit)).sum /
         ((filteredRows db q).map (fun r => r.productQty * r.priceUnit)).sum)))
    ∧ (kpisEndpoint db q).pct_invoiced =
      (if ((filteredRows db q).map (fun r => r.productQty * r.priceUnit)).sum = 0
       then none
       else some (pgRound1 (100 *
         ((filteredRows db q).map (fun r => r.qtyInvoiced * r.priceUnit)).sum /
         ((filteredRows db q).map (fun r => r.productQty * r.priceUnit)).sum))) := by
  constructor
  · show pctOf
      (sqlSum ((filteredRows db q).map (fun r => r.qtyReceived * r.priceUnit)))
      (sqlSum ((filteredRows db q).map (fun r => r.productQty * r.priceUnit))) = _
    exact pctOf_sqlSum (filteredRows db q) _ _
  · show pctOf
      (sqlSum ((filteredRows db q).map (fun r => r.qtyInvoiced * r.priceUnit)))
      (sqlSum ((filteredRows db q).map (fun r => r.productQty * r.priceUnit))) = _
    exact pctOf_sqlSum (filteredRows db q) _ _

/-! Claim C4. -/

/-- Query with a non-numeric `page` parameter. -/
def qPageBad : Query := { Query.empty with page := "abc" }

/-- C4 counterexample: `page=abc` parses to `NaN`, which `Math.max` keeps,
so the interpolated `OFFSET NaN` makes the query fail — the request is
rejected with a 500 error instead of being silently defaulted. -/
theorem claim_c4_counterexample :
    effPage "abc" = none ∧ linesEndpoint [] qPageBad = none := by
  refine ⟨by decide, by decide⟩

/-- C4 (amended): absent `page`/`pageSize` default to 1 and 50; a value
whose `parseInt` succeeds is clamped — the effective page is at least 1 and
the effective page size lies in `[10, 200]` — and the request proceeds with
those effective values; but a value `parseInt` cannot parse becomes `NaN`,
is not clamped, and makes the request fail (the originally claimed "never
rejects" does not hold for non-numeric input). -/
theorem claim_c4_amended :
    (∀ s n, jsParseInt (if s = "" then "1" else s) = some n →
        effPage s = some (max 1 n) ∧ 1 ≤ max 1 n)
    ∧ (∀ s n, jsParseInt (if s = "" then "50" else s) = some n →
        effPageSize s = some (min 200 (max 10 n)) ∧
          10 ≤ min 200 (max 10 n) ∧ min 200 (max 10 n) ≤ 200)
    ∧ effPage "" = some 1 ∧ effPageSize "" = some 50
    ∧ (∀ db q, effPage q.page = none → linesEndpoint db q = none)
    ∧ (∀ db q, effPageSize q.pageSize = none → linesEndpoint db q = none)
    ∧ (∀ db q p k, effPage q.page = some p → effPageSize q.pageSize = some k →
        linesEndpoint db q = some (linesCore db q p k)) := by
  refine ⟨?_, ?_, by decide, by decide, ?_, ?_, ?_⟩
  · intro s n h
    unfold effPage
    rw [h]
    exact ⟨rfl, le_max_left 1 n⟩
  · intro s n h
    unfold effPageSize
    rw [h]
    refine ⟨rfl, ?_, min_le_left 200 _⟩
    have h1 : (10 : Int) ≤ max 10 n := le_max_left 10 n
    omega
  · intro db q h
    unfold linesEndpoint
    rw [h]
  · intro db q h
    unfold linesEndpoint
    rw [h]
    cases effPage q.page <;> rfl
  · intro db q p k hp hk
    unfold linesEndpoint
    rw [hp, hk]

/-- C4 witness: `page=0` clamps up to 1, `pageSize=999` clamps down
to 200. -/
theorem claim_c4_witness :
    (jsParseInt (if "0" = "" then "1" else "0") = some 0 ∧
        effPage "0" = some (max 1 0) ∧ (1 : Int) ≤ max 1 0) ∧
      (jsParseInt (if "999" = "" then "50" else "999") = some 999 ∧
        effPageSize "999" = some (min 200 (max 10 999)) ∧
          (10 : Int) ≤ min 200 (max 10 999) ∧
          (min 200 (max 10 999) : Int) ≤ 200) :=
  ⟨⟨by decide, claim_c4_amended.1 "0" 0 (by decide)⟩,
    ⟨by decide, claim_c4_amended.2.1 "999" 999 (by decide)⟩⟩

/-! Claim C8. -/

/-- C8: when the trimmed `q` parameter is shorter than one character, both
typeahead endpoints return the empty list with the database untouched (the
Boolean component records whether a query was issued). -/
theorem claim_c8 (db : List Row) (qy : Query)
    (h : (jsTrim qy.q).length < 1) :
    productsEndpoint db qy = (false, []) ∧ skusEndpoint db qy = (false, []) := by
  constructor
  · simp [productsEndpoint, h]
  · simp [skusEndpoint, h]

/-- Query whose `q` parameter is all whitespace. -/
def qBlank : Query := { Query.empty with q := " " }

/-- C8 witness: a whitespace-only query string trims to length 0 and both
endpoints short-circuit. -/
theorem claim_c8_witness :
    (jsTrim qBlank.q).length < 1 ∧
      productsEndpoint [] qBlank = (false, []) ∧
      skusEndpoint [] qBlank = (false, []) :=
  ⟨by decide, (claim_c8 [] qBlank (by decide)).1, (claim_c8 [] qBlank (by decide)).2⟩

/-! Claim C10. -/

/-- Helper lemmas for the `SORTABLE` lookup outcomes. -/
theorem sortColOf_col {s c : String} (h : SORTABLE s = SortLookup.col c) :
    sortColOf s = c := by
  unfold sortColOf
  rw [h]

theorem sortColOf_inherited {s k : String}
    (h : SORTABLE s = SortLookup.inherited k) : sortColOf s = protoRender k := by
  unfold sortColOf
  rw [h]

theorem sortColOf_miss {s : String} (h : SORTABLE s = SortLookup.miss) :
    sortColOf s = "month" := by
  unfold sortColOf
  rw [h]

theorem SORTABLE_cases (s : String) :
    (∃ c, SORTABLE s = SortLookup.col c ∧ c ∈ sortColumns) ∨
      (s ∈ protoKeys ∧ SORTABLE s = SortLookup.inherited s) ∨
      SORTABLE s = SortLookup.miss := by
  unfold SORTABLE
  split
  any_goals exact Or.inl ⟨_, rfl, by decide⟩
  split_ifs with h
  · exact Or.inr (Or.inl ⟨h, rfl⟩)
  · exact Or.inr (Or.inr rfl)

/-- C10 counterexample: `sortBy=constructor` hits the `Object.prototype`
member inherited by the plain object literal; the lookup is truthy, so the
`|| month` fallback never fires and the stringified `Object` constructor —
not one of the eleven column names — is interpolated into `ORDER BY`. -/
theorem claim_c10_counterexample :
    SORTABLE "constructor" = SortLookup.inherited "constructor" ∧
      sortColOf "constructor" = "function Object() \x7b [native code] \x7d" ∧
      sortColOf "constructor" ∉ sortColumns ∧
      sortColOf "constructor" ≠ "month" ∧
      orderByFragment "constructor" "desc" =
        "function Object() \x7b [native code] \x7d DESC, sku ASC" := by
  refine ⟨by decide, by decide, by decide, by decide, by decide⟩

/-- C10 (amended): for every `sortBy` that does not name an inherited
`Object.prototype` member, the `ORDER BY` column is one of the eleven fixed
output column names (falling back to `month` on a genuine miss); a `sortBy`
naming an inherited member instead interpolates that member stringification
— a fixed engine-supplied string, never free request text, but not an
allow-listed column. In every case the column slot belongs to the fixed
finite set of the eleven columns plus the twelve prototype
stringifications, the direction token is exactly `ASC` or `DESC` (anything
other than `asc` yields `DESC`), and the fragment is assembled from only
those tokens. -/
theorem claim_c10_amended (sortBy sortDir : String) :
    ((∀ k, SORTABLE sortBy ≠ SortLookup.inherited k) →
      sortColOf sortBy ∈ sortColumns)
    ∧ (SORTABLE sortBy = SortLookup.miss → sortColOf sortBy = "month")
    ∧ (∀ k, SORTABLE sortBy = SortLookup.inherited k →
        k ∈ protoKeys ∧ sortColOf sortBy = protoRender k)
    ∧ sortColOf sortBy ∈ sortColumns ++ protoKeys.map protoRender
    ∧ (sortDirOf sortDir = "ASC" ∨ sortDirOf sortDir = "DESC")
    ∧ (sortDir ≠ "asc" → sortDirOf sortDir = "DESC")
    ∧ orderByFragment sortBy sortDir =
        sortColOf sortBy ++ " " ++ sortDirOf sortDir ++ ", sku " ++
          tieDirOf sortDir := by
  refine ⟨?_, fun h => sortColOf_miss h, ?_, ?_, ?_, ?_, rfl⟩
  · intro hni
    rcases SORTABLE_cases sortBy with ⟨c, hc, hmem⟩ | ⟨hp, hinh⟩ | hm
    · rw [sortColOf_col hc]
      exact hmem
    · exact absurd hinh (hni sortBy)
    · rw [sortColOf_miss hm]
      decide
  · intro k hk
    rcases SORTABLE_cases sortBy with ⟨c, hc, _⟩ | ⟨hp, hinh⟩ | hm
    · rw [hc] at hk
      cases hk
    · rw [hinh] at hk
      cases hk
      exact ⟨hp, sortColOf_inherited hinh⟩
    · rw [hm] at hk
      cases hk
  · rcases SORTABLE_cases sortBy with ⟨c, hc, hmem⟩ | ⟨hp, hinh⟩ | hm
    · rw [sortColOf_col hc]
      exact List.mem_append.mpr (Or.inl hmem)
    · rw [sortColOf_inherited hinh]
      exact List.mem_append.mpr (Or.inr (List.mem_map_of_mem protoRender hp))
    · rw [sortColOf_miss hm]
      exact List.mem_append.mpr (Or.inl (by decide))
  · unfold sortDirOf
    split <;> simp
  · intro h
    unfold sortDirOf
    rw [if_neg h]

/-- C10 witness: a non-allow-listed, non-inherited `sortBy` falls back to
`month`; the inherited name `constructor` instead reaches the query as the
fixed stringification of the `Object` function; a non-`asc` direction
yields `DESC`. -/
theorem claim_c10_witness :
    (SORTABLE "bogus" = SortLookup.miss ∧ sortColOf "bogus" = "month") ∧
      (SORTABLE "constructor" = SortLookup.inherited "constructor" ∧
        "constructor" ∈ protoKeys ∧
        sortColOf "constructor" = protoRender "constructor") ∧
      ("desc" ≠ "asc" ∧ sortDirOf "desc" = "DESC") :=
  ⟨⟨by decide, (claim_c10_amended "bogus" "desc").2.1 (by decide)⟩,
    ⟨by decide,
      (claim_c10_amended "constructor" "desc").2.2.1 "constructor" (by decide)⟩,
    ⟨by decide, (claim_c10_amended "bogus" "desc").2.2.2.2.2.1 (by decide)⟩⟩

/-! Order-theoretic facts about the modelled `ORDER BY` comparisons. -/

theorem charToNat_inj {a b : Char} (h : a.toNat = b.toNat) : a = b := by
  refine Char.eq_of_val_eq ?_
  unfold Char.toNat at h
  exact UInt32.toNat.inj h

theorem charsLt_irrefl : ∀ as, charsLt as as = false := by
  intro as
  induction as with
  | nil => rfl
  | cons a t ih => simp [charsLt, ih]

theorem charsLt_asymm : ∀ as bs, charsLt as bs = true → charsLt bs as = true → False := by
  intro as
  induction as with
  | nil =>
    intro bs h1 h2
    cases bs <;> simp_all [charsLt]
  | cons a t ih =>
    intro bs h1 h2
    cases bs with
    | nil => simp_all [charsLt]
    | cons b u =>
      simp only [charsLt, Bool.or_eq_true, Bool.and_eq_true, decide_eq_true_eq] at h1 h2
      rcases h1 with h1 | ⟨h1e, h1r⟩ <;> rcases h2 with h2 | ⟨h2e, h2r⟩
      · omega
      · omega
      · omega
      · exact ih u h1r h2r

theorem charsLt_trans : ∀ as bs cs, charsLt as bs = true → charsLt bs cs = true →
    charsLt as cs = true := by
  intro as
  induction as with
  | nil =>
    intro bs cs h1 h2
    cases bs <;> cases cs <;> simp_all [charsLt]
  | cons a t ih =>
    intro bs cs h1 h2
    cases bs with
    | nil => simp_all [charsLt]
    | cons b u =>
      cases cs with
      | nil => simp_all [charsLt]
      | cons c v =>
        simp only [charsLt, Bool.or_eq_true, Bool.and_eq_true, decide_eq_true_eq] at h1 h2 ⊢
        rcases h1 with h1 | ⟨h1e, h1r⟩ <;> rcases h2 with h2 | ⟨h2e, h2r⟩
        · exact Or.inl (by omega)
        · exact Or.inl (by omega)
        · exact Or.inl (by omega)
        · exact Or.inr ⟨by omega, ih u v h1r h2r⟩

theorem charsLt_conn : ∀ as bs, charsLt as bs = false → charsLt bs as = false →
    as = bs := by
  intro as
  induction as with
  | nil =>
    intro bs h1 h2
    cases bs <;> simp_all [charsLt]
  | cons a t ih =>
    intro bs h1 h2
    cases bs with
    | nil => simp_all [charsLt]
    | cons b u =>
      simp only [charsLt, Bool.or_eq_false_iff, Bool.and_eq_false_iff,
        decide_eq_false_iff_not, not_lt] at h1 h2
      have hab : a.toNat = b.toNat := by omega
      obtain ⟨_, h1r⟩ := h1
      obtain ⟨_, h2r⟩ := h2
      rcases h1r with h1r | h1r
      · exact absurd hab (by simpa using h1r)
      · rcases h2r with h2r | h2r
        · exact absurd hab.symm (by simpa using h2r)
        · rw [charToNat_inj hab, ih u (by simpa using h1r) (by simpa using h2r)]

theorem strLeB_refl (s : String) : strLeB s s = true := by
  unfold strLeB
  rw [charsLt_irrefl]
  rfl

theorem strLeB_total (s t : String) : strLeB s t = true ∨ strLeB t s = true := by
  unfold strLeB
  by_cases h1 : charsLt t.data s.data = true
  · by_cases h2 : charsLt s.data t.data = true
    · exact (charsLt_asymm _ _ h1 h2).elim
    · right
      rw [Bool.not_eq_true] at h2
      rw [h2]
      rfl
  · left
    rw [Bool.not_eq_true] at h1
    rw [h1]
    rfl

theorem strLeB_trans {s t u : String} (h1 : strLeB s t = true)
    (h2 : strLeB t u = true) : strLeB s u = true := by
  unfold strLeB at h1 h2 ⊢
  rw [Bool.not_eq_true'] at h1 h2 ⊢
  by_cases hst : charsLt s.data t.data = true
  · by_cases hus : charsLt u.data s.data = true
    · exact absurd (charsLt_trans _ _ _ hus hst) (by rw [h2]; simp)
    · rwa [Bool.not_eq_true] at hus
  · rw [Bool.not_eq_true] at hst
    have hd : s.data = t.data := charsLt_conn _ _ hst h1
    have hst2 : s = t := by
      cases s
      cases t
      exact congrArg String.mk hd
    rw [hst2]
    exact h2

theorem strLeB_antisymm {s t : String} (h1 : strLeB s t = true)
    (h2 : strLeB t s = true) : s = t := by
  unfold strLeB at h1 h2
  rw [Bool.not_eq_true'] at h1 h2
  have hd := charsLt_conn _ _ h2 h1
  cases s
  cases t
  exact congrArg String.mk hd

theorem ascLe_refl (v : SqlVal) : SqlVal.ascLe v v = true := by
  cases v with
  | s a => exact strLeB_refl a
  | n a => simp [SqlVal.ascLe]
  | null => simp [SqlVal.ascLe]

theorem ascLe_total (a b : SqlVal) :
    SqlVal.ascLe a b = true ∨ SqlVal.ascLe b a = true := by
  cases a <;> cases b <;>
    simp only [SqlVal.ascLe, SqlVal.rank, decide_eq_true_eq]
  case s.s x y => exact strLeB_total x y
  case n.n x y => exact le_total x y
  all_goals omega

theorem ascLe_trans {a b c : SqlVal} (h1 : SqlVal.ascLe a b = true)
    (h2 : SqlVal.ascLe b c = true) : SqlVal.ascLe a c = true := by
  cases a <;> cases b <;> cases c <;>
    simp only [SqlVal.ascLe, SqlVal.rank, decide_eq_true_eq] at h1 h2 ⊢
  case s.s.s => exact strLeB_trans h1 h2
  case n.n.n => exact le_trans h1 h2
  all_goals omega

theorem ascLe_antisymm {a b : SqlVal} (h1 : SqlVal.ascLe a b = true)
    (h2 : SqlVal.ascLe b a = true) : a = b := by
  cases a <;> cases b <;>
    simp only [SqlVal.ascLe, SqlVal.rank, decide_eq_true_eq] at h1 h2
  case s.s => exact congrArg SqlVal.s (strLeB_antisymm h1 h2)
  case n.n => exact congrArg SqlVal.n (le_antisymm h1 h2)
  case null.null => rfl
  all_goals omega

theorem rowLeB_total (col : String) (d : Bool) (a b : RollupRow) :
    rowLeB col d a b = true ∨ rowLeB col d b a = true := by
  unfold rowLeB
  by_cases hk : colValue col a = colValue col b
  · rw [if_pos hk, if_pos hk.symm]
    cases d
    · simpa using ascLe_total (skuVal a) (skuVal b)
    · simpa using ascLe_total (skuVal b) (skuVal a)
  · have hk2 : ¬ colValue col b = colValue col a := fun he => hk he.symm
    rw [if_neg hk, if_neg hk2]
    cases d
    · simpa using ascLe_total (colValue col b) (colValue col a)
    · simpa using ascLe_total (colValue col a) (colValue col b)

theorem rowLeB_trans {col : String} {d : Bool} {a b c : RollupRow}
    (h1 : rowLeB col d a b = true) (h2 : rowLeB col d b c = true) :
    rowLeB col d a c = true := by
  unfold rowLeB at h1 h2 ⊢
  by_cases hab : colValue col a = colValue col b
  · rw [if_pos hab] at h1
    by_cases hbc : colValue col b = colValue col c
    · rw [if_pos hbc] at h2
      rw [if_pos (hab.trans hbc)]
      cases d
      · simp only [Bool.false_eq_true, if_false] at h1 h2 ⊢
        exact ascLe_trans h1 h2
      · simp only [if_true] at h1 h2 ⊢
        exact ascLe_trans h2 h1
    · rw [if_neg hbc] at h2
      rw [if_neg (fun he => hbc (hab.symm.trans he)), hab]
      exact h2
  · rw [if_neg hab] at h1
    by_cases hbc : colValue col b = colValue col c
    · rw [if_pos hbc] at h2
      have hac : ¬ colValue col a = colValue col c := fun he => hab (he.trans hbc.symm)
      rw [if_neg hac, ← hbc]
      exact h1
    · rw [if_neg hbc] at h2
      by_cases hac : colValue col a = colValue col c
      · exfalso
        apply hab
        cases d
        · simp only [Bool.false_eq_true, if_false] at h1 h2
          rw [← hac] at h2
          exact ascLe_antisymm h2 h1
        · simp only [if_true] at h1 h2
          rw [← hac] at h2
          exact ascLe_antisymm h1 h2
      · rw [if_neg hac]
        cases d
        · simp only [Bool.false_eq_true, if_false] at h1 h2 ⊢
          exact ascLe_trans h2 h1
        · simp only [if_true] at h1 h2 ⊢
          exact ascLe_trans h1 h2

/-! Claim C7. -/

/-- One step of the sort contract between two consecutive returned rows:
the primary column is non-decreasing when the direction is ascending and
non-increasing otherwise, and on primary ties the SKU is ordered in the
opposite direction. -/
def claimSortStep (col : String) (asc : Prop) [Decidable asc]
    (a b : RollupRow) : Prop :=
  (if asc then SqlVal.ascLe (colValue col a) (colValue col b) = true
   else SqlVal.ascLe (colValue col b) (colValue col a) = true)
  ∧ (colValue col a = colValue col b →
      (if asc then SqlVal.ascLe (skuVal b) (skuVal a) = true
       else SqlVal.ascLe (skuVal a) (skuVal b) = true))

theorem rowLeB_claimStep (col : String) (P : Prop) [Decidable P]
    {a b : RollupRow} (h : rowLeB col (decide P) a b = true) :
    claimSortStep col P a b := by
  unfold rowLeB at h
  unfold claimSortStep
  by_cases hP : P
  · simp only [decide_eq_true hP, if_true] at h
    rw [if_pos hP, if_pos hP]
    by_cases hk : colValue col a = colValue col b
    · rw [if_pos hk] at h
      rw [hk]
      exact ⟨ascLe_refl _, fun _ => h⟩
    · rw [if_neg hk] at h
      exact ⟨h, fun he => absurd he hk⟩
  · simp only [decide_eq_false hP, Bool.false_eq_true, if_false] at h
    rw [if_neg hP, if_neg hP]
    by_cases hk : colValue col a = colValue col b
    · rw [if_pos hk] at h
      rw [hk]
      exact ⟨ascLe_refl _, fun _ => h⟩
    · rw [if_neg hk] at h
      exact ⟨h, fun he => absurd he hk⟩

/-- The chain lemma for the paging stage: every page of `linesEndpoint` is
sorted by the resolved column with the SKU tie-break. -/
theorem linesEndpoint_chain (db : List Row) (q : Query) (resp : LinesResp)
    (h : linesEndpoint db q = some resp) :
    List.Chain' (claimSortStep (sortColOf q.sortBy)
        (sortDirOf q.sortDir = "ASC")) resp.data := by
  unfold linesEndpoint at h
  rcases hp : effPage q.page with _ | p <;> rw [hp] at h
  · cases h
  rcases hk : effPageSize q.pageSize with _ | k <;> rw [hk] at h
  · cases h
  injection h with h
  subst h
  have hsorted : List.Pairwise
      (rowLe (sortColOf q.sortBy) (sortDirOf q.sortDir = "ASC"))
      (sortedRollup db q) := by
    haveI : IsTotal RollupRow
        (rowLe (sortColOf q.sortBy) (sortDirOf q.sortDir = "ASC")) :=
      ⟨fun a b => rowLeB_total _ _ a b⟩
    haveI : IsTrans RollupRow
        (rowLe (sortColOf q.sortBy) (sortDirOf q.sortDir = "ASC")) :=
      ⟨fun a b c h1 h2 => rowLeB_trans h1 h2⟩
    exact List.sorted_insertionSort _ _
  have hsub : (((sortedRollup db q).drop (((p - 1) * k).toNat)).take
      k.toNat).Sublist (sortedRollup db q) :=
    ((List.take_sublist _ _).trans (List.drop_sublist _ _))
  have hpw := hsorted.sublist hsub
  exact (hpw.imp (fun hr => rowLeB_claimStep _ _ hr)).chain'

/-- A request that is answered at all did not hit an inherited
`Object.prototype` member, and is answered by the paging stage. -/
theorem linesRequest_some {db : List Row} {q : Query} {resp : LinesResp}
    (h : linesRequest db q = some resp) :
    linesEndpoint db q = some resp ∧
      ∀ k, SORTABLE q.sortBy ≠ SortLookup.inherited k := by
  unfold linesRequest at h
  rcases hS : SORTABLE q.sortBy with c | k | _ <;> rw [hS] at h
  · exact ⟨h, fun j hj => SortLookup.noConfusion hj⟩
  · exact Option.noConfusion h
  · exact ⟨h, fun j hj => SortLookup.noConfusion hj⟩

/-- Query that asks to sort by the inherited `constructor` member. -/
def qConstructor : Query := { Query.empty with sortBy := "constructor" }

/-- C7 counterexample: `sortBy=constructor` names an `Object.prototype`
member inherited by the allow-list object, so the lookup is truthy and the
`|| month` fallback never fires: the resolved column is the stringified
`Object` function, not `month`, and the request fails even though paging
is valid — refuting the claim that any `sortBy` outside the allow-list
falls back to `month`. -/
theorem claim_c7_counterexample :
    SORTABLE "constructor" = SortLookup.inherited "constructor" ∧
      sortColOf "constructor" ≠ "month" ∧
      effPage qConstructor.page = some 1 ∧
      effPageSize qConstructor.pageSize = some 50 ∧
      linesRequest [] qConstructor = none :=
  ⟨by decide, by decide, by decide, by decide, rfl⟩

/-- C7 (amended): every page the endpoint successfully returns is ordered
by the resolved sort column — non-decreasing for `sortDir=asc`,
non-increasing otherwise — with ties broken by SKU in the opposite
direction; a `sortBy` that misses both the allow-list and the inherited
`Object.prototype` members resolves to the `month` column; and a
successfully answered request never had a `sortBy` naming an inherited
member (those requests fail instead of falling back). -/
theorem claim_c7_amended (db : List Row) (q : Query) (resp : LinesResp)
    (h : linesRequest db q = some resp) :
    List.Chain' (claimSortStep (sortColOf q.sortBy)
        (sortDirOf q.sortDir = "ASC")) resp.data
    ∧ (SORTABLE q.sortBy = SortLookup.miss → sortColOf q.sortBy = "month")
    ∧ (∀ k, SORTABLE q.sortBy ≠ SortLookup.inherited k) :=
  ⟨linesEndpoint_chain db q resp (linesRequest_some h).1,
    fun hm => sortColOf_miss hm,
    (linesRequest_some h).2⟩

/-- First sample row of the witness database. -/
def rowA : Row :=
  { state := "purchase"
    dateOrder := ⟨2025, 1, 15⟩
    completeName := some "Food / Fruit"
    defaultCodePP := some "SKU-A"
    defaultCodePT := none
    nameEn := some "Apple"
    productTmplId := 1
    variantId := 1
    uomId := some 1
    uomName := some "kg"
    productQty := 2
    qtyReceived := 1
    qtyInvoiced := 1
    priceUnit := 5 }

/-- Second sample row of the witness database. -/
def rowB : Row :=
  { state := "purchase"
    dateOrder := ⟨2025, 2, 10⟩
    completeName := some "Food / Veg"
    defaultCodePP := some "SKU-B"
    defaultCodePT := none
    nameEn := some "Beet"
    productTmplId := 2
    variantId := 2
    uomId := some 1
    uomName := some "kg"
    productQty := 3
    qtyReceived := 0
    qtyInvoiced := 0
    priceUnit := 4 }

/-- Two-row witness database. -/
def dbW : List Row := [rowA, rowB]

/-- C7 witness: the default request against the two-row database succeeds
and its page satisfies the sort contract. -/
theorem claim_c7_witness :
    linesRequest dbW Query.empty = some (linesCore dbW Query.empty 1 50) ∧
      List.Chain' (claimSortStep (sortColOf Query.empty.sortBy)
        (sortDirOf Query.empty.sortDir = "ASC"))
        (linesCore dbW Query.empty 1 50).data :=
  ⟨rfl,
    (claim_c7_amended dbW Query.empty (linesCore dbW Query.empty 1 50) rfl).1⟩

/-! Counting groups: two grouping keys that induce the same partition on a
list produce the same number of distinct values. -/

theorem dedup_map_length_congr {α β γ : Type} [DecidableEq β] [DecidableEq γ]
    (l : List α) (f : α → β) (g : α → γ)
    (h : ∀ a ∈ l, ∀ b ∈ l, (f a = f b ↔ g a = g b)) :
    ((l.map f).dedup).length = ((l.map g).dedup).length := by
  induction l with
  | nil => simp
  | cons a t ih =>
    have ht : ∀ x ∈ t, ∀ y ∈ t, (f x = f y ↔ g x = g y) := fun x hx y hy =>
      h x (List.mem_cons_of_mem _ hx) y (List.mem_cons_of_mem _ hy)
    have hmem : f a ∈ t.map f ↔ g a ∈ t.map g := by
      simp only [List.mem_map]
      constructor
      · rintro ⟨b, hb, hfb⟩
        exact ⟨b, hb,
          (h b (List.mem_cons_of_mem _ hb) a (List.mem_cons_self _ _)).mp hfb⟩
      · rintro ⟨b, hb, hgb⟩
        exact ⟨b, hb,
          (h b (List.mem_cons_of_mem _ hb) a (List.mem_cons_self _ _)).mpr hgb⟩
    rw [List.map_cons, List.map_cons]
    by_cases hfa : f a ∈ t.map f
    · rw [List.dedup_cons_of_mem hfa, List.dedup_cons_of_mem (hmem.mp hfa)]
      exact ih ht
    · rw [List.dedup_cons_of_not_mem hfa,
        List.dedup_cons_of_not_mem (fun hg => hfa (hmem.mpr hg))]
      simp only [List.length_cons]
      rw [ih ht]

/-! Page chunking: consecutive `LIMIT`/`OFFSET` windows concatenate back to
the whole list. -/

theorem chunk_flatMap {α : Type} :
    ∀ (n k : Nat) (l : List α), 0 < k → l.length ≤ n * k →
      (List.range n).flatMap (fun p => (l.drop (p * k)).take k) = l := by
  intro n
  induction n with
  | zero =>
    intro k l hk hl
    have hnil : l = [] :=
      List.eq_nil_of_length_eq_zero (Nat.le_zero.mp (by simpa using hl))
    simp [hnil]
  | succ n ih =>
    intro k l hk hl
    rw [List.range_succ_eq_map]
    simp only [List.flatMap_cons, List.flatMap_map]
    have hfun : ∀ p : Nat, (l.drop (Nat.succ p * k)).take k =
        ((l.drop k).drop (p * k)).take k := by
      intro p
      rw [List.drop_drop]
      congr 1
      simp only [Nat.succ_eq_add_one]
      ring_nf
    have hlen2 : (l.drop k).length ≤ n * k := by
      rw [List.length_drop]
      have hs : (n + 1) * k = n * k + k := by ring
      omega
    simp only [hfun]
    rw [ih k (l.drop k) hk hlen2, Nat.zero_mul, List.drop_zero,
      List.take_append_drop]

/-! Claim C6. -/

theorem intToNat_mul (p : Nat) (k : Int) (hk : 0 ≤ k) :
    ((p : Int) * k).toNat = p * k.toNat := by
  lift k to Nat using hk
  rw [← Nat.cast_mul, Int.toNat_natCast, Int.toNat_natCast]

theorem le_ceil_mul (m K : Nat) (hK : 0 < K) : m ≤ ((m + K - 1) / K) * K := by
  have hdm := Nat.div_add_mod (m + K - 1) K
  have hlt : (m + K - 1) % K < K := Nat.mod_lt _ hK
  rw [Nat.mul_comm]
  generalize hA : (m + K - 1) / K = A at *
  generalize hKA : K * A = KA at *
  omega

/-- Under the database key constraints, the grouping key of the count query
and the grouping key of the data query induce the same partition of the filtered
rows: `pp.id` determines the SKU, name and category columns (it is the
`product_product` primary key), `uom_pol.id` and the unit name determine
each other, and month labels are unambiguous. -/
theorem countKey_iff_dataKey (db : List Row) (q : Query)
    (H1 : ∀ a ∈ db, ∀ b ∈ db, a.variantId = b.variantId →
      a.defaultCodePP = b.defaultCodePP ∧ a.defaultCodePT = b.defaultCodePT ∧
        a.nameEn = b.nameEn ∧ a.completeName = b.completeName)
    (H2 : ∀ a ∈ db, ∀ b ∈ db, a.uomId = b.uomId → a.uomName = b.uomName)
    (H3 : ∀ a ∈ db, ∀ b ∈ db, a.uomName = b.uomName → a.uomId = b.uomId)
    (H4 : ∀ a ∈ db, ∀ b ∈ db,
      toCharYYYYMM (monthTrunc a.dateOrder) = toCharYYYYMM (monthTrunc b.dateOrder) →
        monthTrunc a.dateOrder = monthTrunc b.dateOrder) :
    ∀ a ∈ filteredRows db q, ∀ b ∈ filteredRows db q,
      (countKey a = countKey b ↔ dataKey a = dataKey b) := by
  intro a ha b hb
  have ha2 : a ∈ db := List.mem_of_mem_filter ha
  have hb2 : b ∈ db := List.mem_of_mem_filter hb
  constructor
  · intro hc
    simp only [countKey, Prod.mk.injEq] at hc
    obtain ⟨hv, hu, hm⟩ := hc
    obtain ⟨e1, e2, e3, e4⟩ := H1 a ha2 b hb2 hv
    have e5 := H2 a ha2 b hb2 hu
    simp only [dataKey, DKey.mk.injEq, rowSku]
    rw [hv, hm, e1, e2, e3, e4, e5]
    simp
  · intro hd
    simp only [dataKey, DKey.mk.injEq] at hd
    simp only [countKey, Prod.mk.injEq]
    exact ⟨hd.2.1, H3 a ha2 b hb2 hd.2.2.2.2.2.2.2.2.2.2,
      H4 a ha2 b hb2 hd.1⟩

theorem linesTotal_eq_rollup_length (db : List Row) (q : Query)
    (H : ∀ a ∈ filteredRows db q, ∀ b ∈ filteredRows db q,
      (countKey a = countKey b ↔ dataKey a = dataKey b)) :
    linesTotal db q = (rollupRows db q).length := by
  unfold linesTotal rollupRows
  rw [List.length_map]
  exact dedup_map_length_congr (filteredRows db q) countKey dataKey H

theorem rollupRows_nodup (db : List Row) (q : Query) :
    (rollupRows db q).Nodup := by
  unfold rollupRows
  refine List.Nodup.map_on ?_ (List.nodup_dedup _)
  intro x hx y hy hxy
  have h := congrArg (fun rr : RollupRow =>
    (rr.month, rr.variant_id, rr.sku, rr.product_name_en, rr.category_path,
      rr.category_l1, rr.category_l2, rr.category_l3, rr.category_depth,
      rr.category_leaf, rr.po_uom)) hxy
  cases x
  cases y
  simpa [mkRollup] using h

theorem buildWhere_page_irrel (q : Query) (s t : String) :
    buildWhere { q with page := s, pageSize := t } = buildWhere q := rfl

theorem linesTotal_page_irrel (db : List Row) (q : Query) (s t : String) :
    linesTotal db { q with page := s, pageSize := t } = linesTotal db q := rfl

/-- C6: the `total` field of the lines response does not depend on the
`page` and `pageSize` parameters; under the database key constraints
(`pp.id` determines variant columns, unit id and unit name determine each
other, month labels unambiguous) the reported total equals the number of
rollup rows, the rollup rows are pairwise distinct, and the concatenation
of all pages in page order is a permutation of the full rollup result set —
each rollup row appears exactly once. -/
theorem claim_c6 (db : List Row) (q : Query) (k : Int) (hk : 0 < k)
    (H1 : ∀ a ∈ db, ∀ b ∈ db, a.variantId = b.variantId →
      a.defaultCodePP = b.defaultCodePP ∧ a.defaultCodePT = b.defaultCodePT ∧
        a.nameEn = b.nameEn ∧ a.completeName = b.completeName)
    (H2 : ∀ a ∈ db, ∀ b ∈ db, a.uomId = b.uomId → a.uomName = b.uomName)
    (H3 : ∀ a ∈ db, ∀ b ∈ db, a.uomName = b.uomName → a.uomId = b.uomId)
    (H4 : ∀ a ∈ db, ∀ b ∈ db,
      toCharYYYYMM (monthTrunc a.dateOrder) = toCharYYYYMM (monthTrunc b.dateOrder) →
        monthTrunc a.dateOrder = monthTrunc b.dateOrder) :
    (∀ s1 t1 s2 t2 : String, ∀ r1 r2 : LinesResp,
      linesEndpoint db { q with page := s1, pageSize := t1 } = some r1 →
      linesEndpoint db { q with page := s2, pageSize := t2 } = some r2 →
      r1.total = r2.total)
    ∧ linesTotal db q = (rollupRows db q).length
    ∧ (rollupRows db q).Nodup
    ∧ ((List.range ((linesTotal db q + k.toNat - 1) / k.toNat)).flatMap
        (fun p => (linesCore db q ((p : Int) + 1) k).data)).Perm
      (rollupRows db q) := by
  have htot := linesTotal_eq_rollup_length db q
    (countKey_iff_dataKey db q H1 H2 H3 H4)
  refine ⟨?_, htot, rollupRows_nodup db q, ?_⟩
  · intro s1 t1 s2 t2 r1 r2 h1 h2
    have e1 : r1.total = linesTotal db q := by
      unfold linesEndpoint at h1
      rcases hp : effPage ({ q with page := s1, pageSize := t1 } : Query).page
          with _ | p <;> rw [hp] at h1
      · cases h1
      rcases hk2 : effPageSize ({ q with page := s1, pageSize := t1 } : Query).pageSize
          with _ | k2 <;> rw [hk2] at h1
      · cases h1
      injection h1 with h1
      rw [← h1]
      exact linesTotal_page_irrel db q s1 t1
    have e2 : r2.total = linesTotal db q := by
      unfold linesEndpoint at h2
      rcases hp : effPage ({ q with page := s2, pageSize := t2 } : Query).page
          with _ | p <;> rw [hp] at h2
      · cases h2
      rcases hk2 : effPageSize ({ q with page := s2, pageSize := t2 } : Query).pageSize
          with _ | k2 <;> rw [hk2] at h2
      · cases h2
      injection h2 with h2
      rw [← h2]
      exact linesTotal_page_irrel db q s2 t2
    rw [e1, e2]
  · have hperm : (sortedRollup db q).Perm (rollupRows db q) :=
      List.perm_insertionSort _ _
    have hlen : (sortedRollup db q).length = (rollupRows db q).length :=
      hperm.length_eq
    have hKpos : 0 < k.toNat := by omega
    have hcover : (sortedRollup db q).length ≤
        ((linesTotal db q + k.toNat - 1) / k.toNat) * k.toNat := by
      rw [hlen, ← htot]
      exact le_ceil_mul (linesTotal db q) k.toNat hKpos
    have hdata : ∀ p : Nat, (linesCore db q ((p : Int) + 1) k).data =
        ((sortedRollup db q).drop (p * k.toNat)).take k.toNat := by
      intro p
      show ((sortedRollup db q).drop ((((p : Int) + 1 - 1) * k).toNat)).take
        k.toNat = _
      have he : ((p : Int) + 1 - 1) * k = (p : Int) * k := by ring
      rw [he, intToNat_mul p k (le_of_lt hk)]
    have hconcat : (List.range ((linesTotal db q + k.toNat - 1) / k.toNat)).flatMap
        (fun p => (linesCore db q ((p : Int) + 1) k).data) = sortedRollup db q := by
      calc (List.range ((linesTotal db q + k.toNat - 1) / k.toNat)).flatMap
            (fun p => (linesCore db q ((p : Int) + 1) k).data)
          = (List.range ((linesTotal db q + k.toNat - 1) / k.toNat)).flatMap
            (fun p => ((sortedRollup db q).drop (p * k.toNat)).take k.toNat) := by
            simp only [hdata]
        _ = sortedRollup db q :=
            chunk_flatMap _ k.toNat (sortedRollup db q) hKpos hcover
    rw [hconcat]
    exact hperm

/-- C6 witness: the key constraints hold of the two-row database, and its
single page reproduces the rollup set. -/
theorem claim_c6_witness :
    ((0 : Int) < 10 ∧
      (∀ a ∈ dbW, ∀ b ∈ dbW, a.variantId = b.variantId →
        a.defaultCodePP = b.defaultCodePP ∧ a.defaultCodePT = b.defaultCodePT ∧
          a.nameEn = b.nameEn ∧ a.completeName = b.completeName) ∧
      (∀ a ∈ dbW, ∀ b ∈ dbW, a.uomId = b.uomId → a.uomName = b.uomName) ∧
      (∀ a ∈ dbW, ∀ b ∈ dbW, a.uomName = b.uomName → a.uomId = b.uomId) ∧
      (∀ a ∈ dbW, ∀ b ∈ dbW,
        toCharYYYYMM (monthTrunc a.dateOrder) = toCharYYYYMM (monthTrunc b.dateOrder) →
          monthTrunc a.dateOrder = monthTrunc b.dateOrder)) ∧
      ((List.range ((linesTotal dbW Query.empty + (10 : Int).toNat - 1) /
          (10 : Int).toNat)).flatMap
        (fun p => (linesCore dbW Query.empty ((p : Int) + 1) 10).data)).Perm
      (rollupRows dbW Query.empty) :=
  ⟨⟨by decide, by decide, by decide, by decide, by decide⟩,
    (claim_c6 dbW Query.empty 10 (by decide) (by decide) (by decide) (by decide)
      (by decide)).2.2.2⟩
